import Mathlib

/-!
# MultiThreadedDatabaseServer: the session loop of `dbserver.c`

A shallow embedding of `HandleClient` (src/dbserver.c, lines 258-347) together
with the part of the operating system it talks to: the client socket and the
backing file `mydb.txt`, reached through a descriptor the session opens itself.

Everything is modelled at the level of raw bytes (`List Nat`), because the
code moves structures around with `read`/`write` on their memory image.
The header `msg.h` is not part of the sources at hand; its contents are
modelled from section 6 of the specification and the only constant left open is
`MAX_NAME_LENGTH`, written `N` below and passed to every definition.
-/

namespace DbServer

/-! ## `msg.h` -/

/-- Modelled from the spec: `msg.h` is missing; the tag of a PUT request (section 6: `PUT=1`). -/
def PUT : Int := 1

/-- Modelled from the spec: `msg.h` is missing; the tag of a GET request (section 6: `GET=2`). -/
def GET : Int := 2

/-- Modelled from the spec: `msg.h` is missing; the tag of a positive answer (section 6: `SUCCESS=3`). -/
def SUCCESS : Int := 3

/-- Modelled from the spec: `msg.h` is missing; the tag of a negative answer (section 6: `FAIL=4`). -/
def FAIL : Int := 4

/-- Modelled from the spec: `msg.h` is missing; `sizeof(struct record)` for
`struct record { int32 id; char name[N]; }`: a 4-byte id followed by the name
buffer, rounded up to the 4-byte alignment of the structure. -/
def sizeofRecord (N : Nat) : Nat := 4 * ((4 + N + 3) / 4)

/-- Modelled from the spec: `msg.h` is missing; `sizeof(struct msg)` for
`struct msg { type; struct record rd; }`: a 4-byte tag followed by the record. -/
def sizeofMsg (N : Nat) : Nat := 4 + sizeofRecord N

/-- The value of a 32-bit two's complement bit pattern. -/
def toInt32 (u : Nat) : Int :=
  if u % 4294967296 < 2147483648 then ((u % 4294967296 : Nat) : Int)
  else ((u % 4294967296 : Nat) : Int) - 4294967296

/-- The four bytes that hold a 32-bit integer in the memory of a little-endian
host, least significant first. -/
def le32 (x : Int) : List Nat :=
  let u := (x % 4294967296).toNat
  [u % 256, u / 256 % 256, u / 65536 % 256, u / 16777216 % 256]

/-- The 32-bit integer held in the first four bytes of a memory image. -/
def rd32 (bs : List Nat) : Int :=
  toInt32 (bs.getD 0 0 + 256 * bs.getD 1 0 + 65536 * bs.getD 2 0 + 16777216 * bs.getD 3 0)

/-- Modelled from the spec: `msg.h` is missing; field `type` of a `struct msg`
image, its first four bytes (section 6). -/
def msgType (m : List Nat) : Int := rd32 m

/-- Modelled from the spec: `msg.h` is missing; field `rd` of a `struct msg`
image, the `sizeof(struct record)` bytes after the tag (section 6). -/
def msgRd (N : Nat) (m : List Nat) : List Nat := (m.drop 4).take (sizeofRecord N)

/-- Modelled from the spec: `msg.h` is missing; field `id` of a `struct record`
image, its first four bytes (section 6). -/
def recId (r : List Nat) : Int := rd32 r

/-- Modelled from the spec: `msg.h` is missing; field `name` of a `struct record`
image, the `N` bytes after the id (section 6). -/
def recName (N : Nat) (r : List Nat) : List Nat := (r.drop 4).take N

/-- Field `rd.id` of a `struct msg` image. -/
def msgId (m : List Nat) : Int := recId (m.drop 4)

/-- The assignment `m.type = t`. -/
def setType (m : List Nat) (t : Int) : List Nat := le32 t ++ m.drop 4

/-- The field `m.rd` replaced by the image `r`. -/
def setRd (m : List Nat) (r : List Nat) : List Nat := m.take 4 ++ r

/-- The image of a record with the given id and name (the name is padded with
zero bytes up to the end of the structure). -/
def mkRecord (N : Nat) (id : Int) (name : List Nat) : List Nat :=
  le32 id ++ (name ++ List.replicate (sizeofRecord N - 4 - name.length) 0).take (sizeofRecord N - 4)

/-- The image of a message with the given tag and record. -/
def mkMsg (t : Int) (r : List Nat) : List Nat := le32 t ++ r

/-! ## The operating system -/

/-- The offset computed by `int offset = request.rd.id * sizeof(struct record);`.
The id is converted to `size_t`, multiplied modulo `2^64`, and the product is
converted to `int`, which keeps its low 32 bits. -/
def computeOffset (N : Nat) (id : Int) : Int :=
  toInt32 (((id % 18446744073709551616).toNat * sizeofRecord N) % 18446744073709551616)

/-- The file position after `lseek(fd, offset, SEEK_SET)`: a negative offset is
refused (`EINVAL`) and leaves the position where it was. The return value is
not part of the result because `HandleClient` discards it. -/
def lseek (cursor : Nat) (offset : Int) : Nat :=
  if offset < 0 then cursor else offset.toNat

/-- The content of a regular file after the bytes `d` have been written at
position `c`: a gap between the end of the file and `c` is filled with zero
bytes, and what lies behind the written range stays. -/
def overwriteAt (file : List Nat) (c : Nat) (d : List Nat) : List Nat :=
  file.take c ++ List.replicate (c - file.length) 0 ++ d ++ file.drop (c + d.length)

/-- The system call `write(fd, buf, |buf|)` on a regular file. `lim` is what the
system is able to do at this call: `none` when the call fails and returns `-1`
with nothing written, `some k` when at most `k` bytes can be transferred.
The result is the new content, the new position and the return value. -/
def fileWrite (file : List Nat) (cursor : Nat) (buf : List Nat) (lim : Option Nat) :
    List Nat × Nat × Int :=
  match lim with
  | none => (file, cursor, -1)
  | some k =>
    let d := buf.take k
    if d.length = 0 then (file, cursor, 0)
    else
      (overwriteAt file cursor d, cursor + d.length, (d.length : Int))

/-- The system call `read(fd, buf, count)` on a regular file. `lim` is as for
`fileWrite`. The result is the bytes placed at the start of the buffer, the new
position and the return value. -/
def fileRead (file : List Nat) (cursor : Nat) (count : Nat) (lim : Option Nat) :
    List Nat × Nat × Int :=
  match lim with
  | none => ([], cursor, -1)
  | some k =>
    let d := (file.drop cursor).take (min count k)
    (d, cursor + d.length, (d.length : Int))

/-- What the client socket does at one `read(c_fd, &request, sizeof(request))`. -/
inductive SockEvent where
  /-- The call fails and returns `-1`. -/
  | error : SockEvent
  /-- The bytes the socket has ready; none at all when the peer has closed. -/
  | deliver : List Nat → SockEvent
deriving DecidableEq, Repr

/-- The system call `read(c_fd, buf, count)`: the return value and the bytes
placed at the start of the buffer. -/
def sockRead (count : Nat) : SockEvent → Int × List Nat
  | SockEvent.error => (-1, [])
  | SockEvent.deliver d => (((d.take count).length : Int), d.take count)

/-- A memory buffer after `bytes` have been stored at its start. -/
def store (buf bytes : List Nat) : List Nat := bytes ++ buf.drop bytes.length

/-! ## `HandleClient` -/

/-- The state of one session: the two message buffers `request` and `response`
(their first content is whatever the stack held), the content of the backing
file with the position of the session's own descriptor `fd`, the frames handed
to `write(c_fd, ...)` so far, and whether the loop has been left (after which
both descriptors are closed). -/
structure Session where
  request : List Nat
  response : List Nat
  file : List Nat
  cursor : Nat
  sent : List (List Nat)
  closed : Bool
deriving DecidableEq, Repr

/-- What the environment does during one iteration of the loop: the socket
read, and the limits of the file transfer the iteration may perform (`wlim` for
the `write` of a PUT, `rlim` for the `read` of a GET; `none` also stands for a
descriptor that `open` failed to deliver). -/
structure Input where
  sock : SockEvent
  wlim : Option Nat
  rlim : Option Nat
deriving DecidableEq, Repr

/-- The branch `request.type == PUT` (lines 290-310). The call to `fsync` does
not change what later calls observe and is left out; the answer is sent only in
the `else` branch, as in the source. -/
def handlePut (N : Nat) (s : Session) (wlim : Option Nat) : Session :=
  let offset := computeOffset N (msgId s.request)
  let cur := lseek s.cursor offset
  let w := fileWrite s.file cur (msgRd N s.request) wlim
  if w.2.2 = -1 then
    { s with file := w.1, cursor := w.2.1, response := setType s.response FAIL }
  else
    let response := setType s.response SUCCESS
    { s with file := w.1, cursor := w.2.1, response := response,
             sent := s.sent ++ [response] }

/-- The branch `request.type == GET` (lines 311-334): seek, clear `response.rd`,
read into it, choose the tag, send. -/
def handleGet (N : Nat) (s : Session) (rlim : Option Nat) : Session :=
  let offset := computeOffset N (msgId s.request)
  let cur := lseek s.cursor offset
  let zeroed := List.replicate (sizeofRecord N) 0
  let r := fileRead s.file cur (sizeofRecord N) rlim
  let rd := store zeroed r.1
  let response := setRd s.response rd
  let response :=
    if r.2.2 ≠ (sizeofRecord N : Int) ∨ recId rd ≠ msgId s.request then
      setType response FAIL
    else
      setType response SUCCESS
  { s with cursor := r.2.1, response := response, sent := s.sent ++ [response] }

/-- One iteration of the `while (1)` loop (lines 280-341). -/
def loopBody (N : Nat) (s : Session) (i : Input) : Session :=
  let rr := sockRead (sizeofMsg N) i.sock
  if rr.1 ≤ 0 then
    { s with closed := true }
  else
    let s := { s with request := store s.request rr.2 }
    if msgType s.request = PUT then handlePut N s i.wlim
    else if msgType s.request = GET then handleGet N s i.rlim
    else { s with closed := true }

/-- The loop of `HandleClient` run against the given behaviour of the
environment; it stops at the first iteration that leaves the loop. -/
def HandleClient (N : Nat) (s : Session) : List Input → Session
  | [] => s
  | i :: rest =>
    let s1 := loopBody N s i
    if s1.closed then s1 else HandleClient N s1 rest

/-- The session at the top of the loop: `fd` has just been opened on a file
with content `file`, nothing has been sent, and the two buffers hold whatever
the stack held. -/
def start (file request response : List Nat) : Session :=
  { request := request, response := response, file := file, cursor := 0,
    sent := [], closed := false }

/-- A full frame arriving, with a file system that completes every transfer. -/
def frame (N : Nat) (t : Int) (id : Int) (name : List Nat) : Input :=
  { sock := SockEvent.deliver (mkMsg t (mkRecord N id name)),
    wlim := some (sizeofRecord N), rlim := some (sizeofRecord N) }

/-- A full PUT frame carrying the record image `r`, with a file system that
completes every transfer. -/
def putReq (N : Nat) (r : List Nat) : Input :=
  { sock := SockEvent.deliver (mkMsg PUT r),
    wlim := some (sizeofRecord N), rlim := some (sizeofRecord N) }

/-- A full GET frame carrying the record image `r` (only its id matters to the
server), with a file system that completes every transfer. -/
def getReq (N : Nat) (r : List Nat) : Input :=
  { sock := SockEvent.deliver (mkMsg GET r),
    wlim := some (sizeofRecord N), rlim := some (sizeofRecord N) }

/-! ## Two sessions at the same time

`main` starts one thread per connection and every thread runs `HandleClient`,
which opens `mydb.txt` itself (line 278). Two sessions therefore share the
content of the file but not a file position: each descriptor has its own.
The system calls are taken to be atomic and a schedule says which session
performs its next call. -/

/-- The first system call of the PUT branch (line 296): the seek. Only the
position of the session's own descriptor changes. -/
def putSeek (N : Nat) (s : Session) : Session :=
  { s with cursor := lseek s.cursor (computeOffset N (msgId s.request)) }

/-- The second system call of the PUT branch (line 297), the write at the
position of the session's own descriptor, with the answer that follows it
(lines 299-309). -/
def putWrite (N : Nat) (s : Session) (wlim : Option Nat) : Session :=
  let w := fileWrite s.file s.cursor (msgRd N s.request) wlim
  if w.2.2 = -1 then
    { s with file := w.1, cursor := w.2.1, response := setType s.response FAIL }
  else
    let response := setType s.response SUCCESS
    { s with file := w.1, cursor := w.2.1, response := response,
             sent := s.sent ++ [response] }

/-- Two sessions that have each read a PUT frame. `file` is the content of the
backing file they share; `a` and `b` hold what is private to each session, in
particular the position of its descriptor; `pcA` and `pcB` count the system
calls of the PUT branch each session has completed. -/
structure Pair where
  file : List Nat
  a : Session
  b : Session
  pcA : Nat
  pcB : Nat
deriving DecidableEq, Repr

/-- The next system call of the PUT branch of a session that has completed `pc`
of them, performed on the shared content `file` with a write that transfers the
whole slot: the content it leaves and the new private state of the session. -/
def putCall (N : Nat) (pc : Nat) (file : List Nat) (t : Session) : List Nat × Session :=
  match pc with
  | 0 => (file, putSeek N t)
  | 1 =>
    ((putWrite N { t with file := file } (some (sizeofRecord N))).file,
      putWrite N { t with file := file } (some (sizeofRecord N)))
  | _ => (file, t)

/-- One step of the schedule: session `a` (for `true`) or session `b` (for
`false`) performs its next system call. -/
def pairStep (N : Nat) (p : Pair) (who : Bool) : Pair :=
  if who then
    { p with file := (putCall N p.pcA p.file p.a).1, a := (putCall N p.pcA p.file p.a).2,
             pcA := if p.pcA < 2 then p.pcA + 1 else p.pcA }
  else
    { p with file := (putCall N p.pcB p.file p.b).1, b := (putCall N p.pcB p.file p.b).2,
             pcB := if p.pcB < 2 then p.pcB + 1 else p.pcB }

/-- The two sessions run under a schedule. -/
def pairRun (N : Nat) (p : Pair) (sch : List Bool) : Pair := sch.foldl (pairStep N) p

/-- Both sessions at the start of their PUT branch. -/
def pairStart (file : List Nat) (a b : Session) : Pair :=
  { file := file, a := a, b := b, pcA := 0, pcB := 0 }

/-- What holds of two sessions storing `r1` in slot `n1` and `r2` in slot `n2`
at every point of every schedule. -/
def PairInv (N n1 n2 : Nat) (r1 r2 : List Nat) (p : Pair) : Prop :=
  p.pcA ≤ 2 ∧ p.pcB ≤ 2 ∧ p.a.request = mkMsg PUT r1 ∧ p.b.request = mkMsg PUT r2 ∧
  (p.pcA = 1 → p.a.cursor = n1 * sizeofRecord N) ∧
  (p.pcB = 1 → p.b.cursor = n2 * sizeofRecord N) ∧
  (p.pcA = 2 → (p.file.drop (n1 * sizeofRecord N)).take (sizeofRecord N) = r1) ∧
  (p.pcB = 2 → (p.file.drop (n2 * sizeofRecord N)).take (sizeofRecord N) = r2)

/-! ## Basic facts about the memory images -/

theorem sizeofRecord_ge (N : Nat) : 4 ≤ sizeofRecord N := by
  unfold sizeofRecord; omega

theorem rd32_le32 (x : Int) (r : List Nat) (h1 : -2147483648 ≤ x) (h2 : x < 2147483648) :
    rd32 (le32 x ++ r) = x := by
  simp only [rd32, le32, List.cons_append, List.nil_append, List.getD_cons_zero,
    List.getD_cons_succ, toInt32]
  split <;> omega

theorem rd32_append (a b : List Nat) (h : 4 ≤ a.length) : rd32 (a ++ b) = rd32 a := by
  unfold rd32
  rw [List.getD_append _ _ _ 0 (by omega), List.getD_append _ _ _ 1 (by omega),
    List.getD_append _ _ _ 2 (by omega), List.getD_append _ _ _ 3 (by omega)]

theorem msgType_setType (m : List Nat) (t : Int) (h1 : -2147483648 ≤ t) (h2 : t < 2147483648) :
    msgType (setType m t) = t := by
  unfold msgType setType
  exact rd32_le32 t _ h1 h2

theorem sockRead_full (N : Nat) (d : List Nat) (h : d.length = sizeofMsg N) :
    sockRead (sizeofMsg N) (SockEvent.deliver d) = ((sizeofMsg N : Int), d) := by
  simp [sockRead, List.take_of_length_le (le_of_eq h), h]

theorem msgType_store (req d : List Nat) (h : 4 ≤ d.length) :
    msgType (store req d) = msgType d := by
  unfold msgType store
  exact rd32_append _ _ h

theorem msgId_store (req d : List Nat) (h : 8 ≤ d.length) :
    msgId (store req d) = msgId d := by
  unfold msgId store recId
  rw [List.drop_append_of_le_length (by omega)]
  exact rd32_append _ _ (by simp; omega)

theorem msgRd_store (N : Nat) (req d : List Nat) (h : sizeofMsg N ≤ d.length) :
    msgRd N (store req d) = msgRd N d := by
  unfold msgRd store sizeofMsg at *
  rw [List.drop_append_of_le_length (by omega), List.take_append_of_le_length (by simp; omega)]

/-! ## The offset computation -/

theorem computeOffset_inrange (N : Nat) (id : Int) (h0 : 0 ≤ id)
    (h1 : id * (sizeofRecord N : Int) < 2147483648) :
    computeOffset N id = id * (sizeofRecord N : Int) := by
  obtain ⟨n, rfl⟩ := Int.eq_ofNat_of_zero_le h0
  have hS := sizeofRecord_ge N
  have h2 : n * sizeofRecord N < 2147483648 := by exact_mod_cast h1
  have h3 : n ≤ n * sizeofRecord N := Nat.le_mul_of_pos_right n (by omega)
  have h4 : ((n : Int) % 18446744073709551616).toNat = n := by omega
  have h6 : (n : Int) * (sizeofRecord N : Int) = ((n * sizeofRecord N : Nat) : Int) := by
    push_cast; ring
  unfold computeOffset toInt32
  rw [h4, h6]
  generalize n * sizeofRecord N = q at *
  split <;> omega

theorem computeOffset_neg (N : Nat) (id : Int) (h0 : id < 0)
    (h1 : -2147483648 ≤ id * (sizeofRecord N : Int)) :
    computeOffset N id = id * (sizeofRecord N : Int) := by
  obtain ⟨k, rfl⟩ : ∃ k : Nat, id = -((k : Int) + 1) := ⟨(-id - 1).toNat, by omega⟩
  have hS := sizeofRecord_ge N
  have h2 : (k + 1) * sizeofRecord N ≤ 2147483648 := by
    have : (((k + 1) * sizeofRecord N : Nat) : Int) ≤ 2147483648 := by
      push_cast; linarith
    exact_mod_cast this
  have h3 : k + 1 ≤ (k + 1) * sizeofRecord N := Nat.le_mul_of_pos_right _ (by omega)
  have h4 : ((-((k : Int) + 1)) % 18446744073709551616).toNat = 18446744073709551616 - (k + 1) := by
    omega
  have h5 : (18446744073709551616 - (k + 1)) * sizeofRecord N
      = 18446744073709551616 * sizeofRecord N - (k + 1) * sizeofRecord N := Nat.sub_mul _ _ _
  have h6 : -((k : Int) + 1) * (sizeofRecord N : Int) = -(((k + 1) * sizeofRecord N : Nat) : Int) := by
    push_cast; ring
  unfold computeOffset toInt32
  rw [h4, h5, h6]
  generalize (k + 1) * sizeofRecord N = q at *
  split <;> omega

set_option maxRecDepth 100000

/-! ## One iteration on a full frame -/

theorem loopBody_put (N : Nat) (s : Session) (i : Input) (d : List Nat)
    (hs : i.sock = SockEvent.deliver d) (hl : d.length = sizeofMsg N) (ht : msgType d = PUT) :
    loopBody N s i = handlePut N { s with request := store s.request d } i.wlim := by
  have h4 : 4 ≤ d.length := by rw [hl]; unfold sizeofMsg; omega
  have hpos : ¬ ((sizeofMsg N : Int) ≤ 0) := by unfold sizeofMsg; omega
  simp only [loopBody, hs, sockRead_full N d hl, hpos, if_false, msgType_store _ _ h4, ht, if_true]

theorem loopBody_get (N : Nat) (s : Session) (i : Input) (d : List Nat)
    (hs : i.sock = SockEvent.deliver d) (hl : d.length = sizeofMsg N) (ht : msgType d = GET) :
    loopBody N s i = handleGet N { s with request := store s.request d } i.rlim := by
  have h4 : 4 ≤ d.length := by rw [hl]; unfold sizeofMsg; omega
  have hpos : ¬ ((sizeofMsg N : Int) ≤ 0) := by unfold sizeofMsg; omega
  have hne : ¬ (GET = PUT) := by decide
  simp only [loopBody, hs, sockRead_full N d hl, hpos, if_false, msgType_store _ _ h4, ht, hne,
    if_true]

theorem loopBody_other (N : Nat) (s : Session) (i : Input) (d : List Nat)
    (hs : i.sock = SockEvent.deliver d) (hl : d.length = sizeofMsg N)
    (hp : msgType d ≠ PUT) (hg : msgType d ≠ GET) :
    loopBody N s i = { s with request := store s.request d, closed := true } := by
  have h4 : 4 ≤ d.length := by rw [hl]; unfold sizeofMsg; omega
  have hpos : ¬ ((sizeofMsg N : Int) ≤ 0) := by unfold sizeofMsg; omega
  simp only [loopBody, hs, sockRead_full N d hl, hpos, if_false, msgType_store _ _ h4, hp, hg]

theorem fileRead_full (file : List Nat) (cursor count : Nat) (lim : Option Nat)
    (h : (fileRead file cursor count lim).2.2 = (count : Int)) :
    (fileRead file cursor count lim).1.length = count := by
  cases lim with
  | none => simp [fileRead] at h
  | some k => simp only [fileRead] at h ⊢; exact_mod_cast h

theorem store_full (zs d : List Nat) (h : zs.length ≤ d.length) : store zs d = d := by
  simp [store, List.drop_eq_nil_of_le h]

/-! ## Claims about a single iteration -/

/-- C8. A full frame whose tag is neither PUT nor GET makes the session leave
the loop at that iteration: no later input is consumed, nothing is written to
the client socket, and the backing file and the position of its descriptor are
what they were. -/
theorem malformed_tag_closes (N : Nat) (s : Session) (i : Input) (rest : List Input)
    (d : List Nat) (hs : i.sock = SockEvent.deliver d) (hl : d.length = sizeofMsg N)
    (hp : msgType d ≠ PUT) (hg : msgType d ≠ GET) :
    (HandleClient N s (i :: rest)).closed = true ∧
      (HandleClient N s (i :: rest)).sent = s.sent ∧
      (HandleClient N s (i :: rest)).file = s.file ∧
      (HandleClient N s (i :: rest)).cursor = s.cursor := by
  simp [HandleClient, loopBody_other N s i d hs hl hp hg]

/-- Witness for C8: a full frame carrying the tag SUCCESS, and one carrying the
undefined tag 77, sent to a session over a file that holds one record. -/
theorem malformed_tag_closes_witness :
    (HandleClient 256 (start (mkRecord 256 0 [97]) [] [])
        [⟨SockEvent.deliver (mkMsg 77 (mkRecord 256 0 [])), some 260, some 260⟩,
         frame 256 GET 0 []]).sent = [] ∧
    (HandleClient 256 (start (mkRecord 256 0 [97]) [] [])
        [frame 256 SUCCESS 0 [], frame 256 GET 0 []]).closed = true :=
  ⟨(malformed_tag_closes 256 (start (mkRecord 256 0 [97]) [] [])
      ⟨SockEvent.deliver (mkMsg 77 (mkRecord 256 0 [])), some 260, some 260⟩
      [frame 256 GET 0 []] (mkMsg 77 (mkRecord 256 0 [])) rfl (by decide) (by decide)
      (by decide)).2.1,
   (malformed_tag_closes 256 (start (mkRecord 256 0 [97]) [] []) (frame 256 SUCCESS 0 [])
      [frame 256 GET 0 []] (mkMsg SUCCESS (mkRecord 256 0 [])) rfl (by decide) (by decide)
      (by decide)).1⟩

/-- C7 (amended). When the socket read returns zero or a negative value, the
session leaves the loop at that iteration without dispatching anything: the
buffers, the backing file, the position of its descriptor and the frames sent
are all what they were, and no later input is consumed. -/
theorem closed_read_closes (N : Nat) (s : Session) (i : Input) (rest : List Input)
    (h : (sockRead (sizeofMsg N) i.sock).1 ≤ 0) :
    HandleClient N s (i :: rest) = { s with closed := true } := by
  simp [HandleClient, loopBody, h]

/-- Witness for C7 (amended): the peer closes the connection after one PUT. -/
theorem closed_read_closes_witness :
    HandleClient 256 (loopBody 256 (start [] [] []) (frame 256 PUT 5 [97]))
        [⟨SockEvent.deliver [], some 260, some 260⟩, frame 256 GET 5 []]
      = { loopBody 256 (start [] [] []) (frame 256 PUT 5 [97]) with closed := true } :=
  closed_read_closes 256 _ ⟨SockEvent.deliver [], some 260, some 260⟩ _ (by decide)

/-- C7 (as stated) fails. After the full frame PUT(1, "alice"), the socket
delivers only 8 bytes, the tag PUT and the id 2. The session does not close: it
dispatches the request buffer, whose name bytes are left from the frame before,
writes slot 2 of the backing file and sends a second SUCCESS. -/
theorem short_read_is_dispatched :
    (mkMsg PUT (le32 2)).length < sizeofMsg 256 ∧
    (HandleClient 256 (start [] (List.replicate 264 0) (List.replicate 264 0))
      [frame 256 PUT 1 [97, 108, 105, 99, 101],
       ⟨SockEvent.deliver (mkMsg PUT (le32 2)), some 260, some 260⟩]).closed = false ∧
    (HandleClient 256 (start [] (List.replicate 264 0) (List.replicate 264 0))
      [frame 256 PUT 1 [97, 108, 105, 99, 101],
       ⟨SockEvent.deliver (mkMsg PUT (le32 2)), some 260, some 260⟩]).sent.map msgType
      = [SUCCESS, SUCCESS] ∧
    ((HandleClient 256 (start [] (List.replicate 264 0) (List.replicate 264 0))
      [frame 256 PUT 1 [97, 108, 105, 99, 101],
       ⟨SockEvent.deliver (mkMsg PUT (le32 2)), some 260, some 260⟩]).file.drop (2 * 260))
      = mkRecord 256 2 [97, 108, 105, 99, 101] := by
  decide

theorem msgRd_setType_setRd (N : Nat) (m r : List Nat) (t : Int) (hm : 4 ≤ m.length)
    (hr : r.length = sizeofRecord N) : msgRd N (setType (setRd m r) t) = r := by
  have h1 : (le32 t).length = 4 := rfl
  have h2 : (m.take 4).length = 4 := by simp; omega
  unfold msgRd setType setRd
  rw [List.drop_append_of_le_length (by omega), List.drop_of_length_le (by omega),
    List.nil_append, List.drop_append_of_le_length (by omega), List.drop_of_length_le (by omega),
    List.nil_append, List.take_of_length_le (by omega)]

/-- C9. A full GET frame is answered by exactly one frame and leaves the content
of the backing file as it was. The answer has type SUCCESS exactly when the read
returned a full slot whose embedded id is the requested id, and then the record
of the answer is the slot that was read; otherwise the answer has type FAIL.
The response buffer is assumed to be at least as long as its tag field. -/
theorem get_response_rule (N : Nat) (s : Session) (i : Input) (d : List Nat)
    (hs : i.sock = SockEvent.deliver d) (hl : d.length = sizeofMsg N) (ht : msgType d = GET)
    (hr : 4 ≤ s.response.length) :
    ∃ resp,
      (loopBody N s i).sent = s.sent ++ [resp] ∧
      (loopBody N s i).file = s.file ∧
      (msgType resp = SUCCESS ↔
        ((fileRead s.file (lseek s.cursor (computeOffset N (msgId d))) (sizeofRecord N)
              i.rlim).2.2 = (sizeofRecord N : Int) ∧
          recId (fileRead s.file (lseek s.cursor (computeOffset N (msgId d))) (sizeofRecord N)
              i.rlim).1 = msgId d)) ∧
      (msgType resp = SUCCESS →
        msgRd N resp = (fileRead s.file (lseek s.cursor (computeOffset N (msgId d)))
              (sizeofRecord N) i.rlim).1) ∧
      (msgType resp ≠ SUCCESS → msgType resp = FAIL) := by
  have h8 : 8 ≤ d.length := by
    have := sizeofRecord_ge N
    rw [hl]; unfold sizeofMsg; omega
  rw [loopBody_get N s i d hs hl ht]
  simp only [handleGet, msgId_store _ _ h8]
  generalize hrd : fileRead s.file (lseek s.cursor (computeOffset N (msgId d)))
    (sizeofRecord N) i.rlim = r
  have hfull : r.2.2 = (sizeofRecord N : Int) → r.1.length = sizeofRecord N := by
    intro h; rw [← hrd] at h ⊢; exact fileRead_full _ _ _ _ h
  have hS : msgType (setType (setRd s.response (store (List.replicate (sizeofRecord N) 0) r.1))
      SUCCESS) = SUCCESS := msgType_setType _ _ (by decide) (by decide)
  have hF : msgType (setType (setRd s.response (store (List.replicate (sizeofRecord N) 0) r.1))
      FAIL) = FAIL := msgType_setType _ _ (by decide) (by decide)
  have hne : FAIL ≠ SUCCESS := by decide
  by_cases hsz : r.2.2 = (sizeofRecord N : Int)
  · have hst : store (List.replicate (sizeofRecord N) 0) r.1 = r.1 :=
      store_full _ _ (by simp [hfull hsz])
    rw [hst] at hS hF ⊢
    by_cases hid : recId r.1 = msgId d
    · refine ⟨_, rfl, trivial, ?_, ?_, ?_⟩
      · simp [hsz, hid, hS]
      · intro _
        simp only [hsz, hid, ne_eq, not_true_eq_false, or_self, if_false]
        exact msgRd_setType_setRd N _ _ _ hr (hfull hsz)
      · simp [hsz, hid, hS]
    · refine ⟨_, rfl, trivial, ?_, ?_, ?_⟩
      · simp [hsz, hid, hF, hne]
      · simp [hsz, hid, hF, hne]
      · simp [hsz, hid, hF]
  · refine ⟨_, rfl, trivial, ?_, ?_, ?_⟩
    · simp [hsz, hF, hne]
    · simp [hsz, hF, hne]
    · simp [hsz, hF]

/-- Witness for C9: a GET for id 5 sent to a fresh session over an empty file. -/
theorem get_response_rule_witness :
    ∃ resp,
      (loopBody 256 (start [] (List.replicate 264 0) (List.replicate 264 0))
          (frame 256 GET 5 [])).sent = [] ++ [resp] ∧
      (loopBody 256 (start [] (List.replicate 264 0) (List.replicate 264 0))
          (frame 256 GET 5 [])).file = [] ∧
      (msgType resp = SUCCESS ↔
        ((fileRead [] (lseek 0 (computeOffset 256 (msgId (mkMsg GET (mkRecord 256 5 [])))))
              (sizeofRecord 256) (some (sizeofRecord 256))).2.2 = (sizeofRecord 256 : Int) ∧
          recId (fileRead [] (lseek 0 (computeOffset 256 (msgId (mkMsg GET (mkRecord 256 5 [])))))
              (sizeofRecord 256) (some (sizeofRecord 256))).1
            = msgId (mkMsg GET (mkRecord 256 5 [])))) ∧
      (msgType resp = SUCCESS →
        msgRd 256 resp = (fileRead [] (lseek 0 (computeOffset 256
              (msgId (mkMsg GET (mkRecord 256 5 []))))) (sizeofRecord 256)
              (some (sizeofRecord 256))).1) ∧
      (msgType resp ≠ SUCCESS → msgType resp = FAIL) :=
  get_response_rule 256 (start [] (List.replicate 264 0) (List.replicate 264 0))
    (frame 256 GET 5 []) (mkMsg GET (mkRecord 256 5 [])) rfl (by decide) (by decide) (by decide)

/-- C3 (as stated) fails. A fresh session over an empty file receives the full
frame PUT(1, "alice"). When `write` on the backing file transfers only 100 of
the 260 bytes of the slot, the iteration sends SUCCESS, not FAIL; and when
`write` returns `-1`, the iteration stores FAIL in the response buffer but
sends no frame at all. -/
theorem put_response_rule_fails :
    (loopBody 256 (start [] (List.replicate 264 0) (List.replicate 264 0))
      ⟨SockEvent.deliver (mkMsg PUT (mkRecord 256 1 [97, 108, 105, 99, 101])),
        some 100, some 260⟩).sent.map msgType = [SUCCESS] ∧
    (loopBody 256 (start [] (List.replicate 264 0) (List.replicate 264 0))
      ⟨SockEvent.deliver (mkMsg PUT (mkRecord 256 1 [97, 108, 105, 99, 101])),
        some 100, some 260⟩).file.length = 260 + 100 ∧
    (loopBody 256 (start [] (List.replicate 264 0) (List.replicate 264 0))
      ⟨SockEvent.deliver (mkMsg PUT (mkRecord 256 1 [97, 108, 105, 99, 101])),
        none, some 260⟩).sent = [] ∧
    msgType (loopBody 256 (start [] (List.replicate 264 0) (List.replicate 264 0))
      ⟨SockEvent.deliver (mkMsg PUT (mkRecord 256 1 [97, 108, 105, 99, 101])),
        none, some 260⟩).response = FAIL ∧
    (loopBody 256 (start [] (List.replicate 264 0) (List.replicate 264 0))
      ⟨SockEvent.deliver (mkMsg PUT (mkRecord 256 1 [97, 108, 105, 99, 101])),
        none, some 260⟩).closed = false := by
  decide

/-- C3 (amended). For every full PUT frame whose `write` on the backing file
does not return `-1`, whether it transfers the whole slot or only a part of it,
the session sends exactly one response frame, of type SUCCESS, and stays in the
loop if it was in it. -/
theorem put_response_rule (N : Nat) (s : Session) (i : Input) (d : List Nat)
    (hs : i.sock = SockEvent.deliver d) (hl : d.length = sizeofMsg N) (ht : msgType d = PUT)
    (hw : (fileWrite s.file (lseek s.cursor (computeOffset N (msgId d))) (msgRd N d)
      i.wlim).2.2 ≠ -1) :
    ∃ resp, msgType resp = SUCCESS ∧ (loopBody N s i).sent = s.sent ++ [resp] ∧
      (loopBody N s i).closed = s.closed := by
  have hS := sizeofRecord_ge N
  have h8 : 8 ≤ d.length := by rw [hl]; unfold sizeofMsg; omega
  rw [loopBody_put N s i d hs hl ht]
  simp only [handlePut, msgId_store _ _ h8, msgRd_store N _ _ (le_of_eq hl.symm)]
  rw [if_neg hw]
  exact ⟨_, msgType_setType _ _ (by decide) (by decide), rfl, rfl⟩

/-- Witness for C3 (amended): PUT(1, "alice") with a write that transfers 100
of the 260 bytes. -/
theorem put_response_rule_witness :
    ∃ resp, msgType resp = SUCCESS ∧
      (loopBody 256 (start [] (List.replicate 264 0) (List.replicate 264 0))
        ⟨SockEvent.deliver (mkMsg PUT (mkRecord 256 1 [97, 108, 105, 99, 101])),
          some 100, some 260⟩).sent = [] ++ [resp] ∧
      (loopBody 256 (start [] (List.replicate 264 0) (List.replicate 264 0))
        ⟨SockEvent.deliver (mkMsg PUT (mkRecord 256 1 [97, 108, 105, 99, 101])),
          some 100, some 260⟩).closed = false :=
  put_response_rule 256 (start [] (List.replicate 264 0) (List.replicate 264 0))
    ⟨SockEvent.deliver (mkMsg PUT (mkRecord 256 1 [97, 108, 105, 99, 101])), some 100, some 260⟩
    (mkMsg PUT (mkRecord 256 1 [97, 108, 105, 99, 101])) rfl (by decide) (by decide) (by decide)

/-- C4 (as stated) fails. The backing file holds the record (0, "alice") in slot
0. A fresh session receives PUT(-1, "eve"): the seek to offset -260 is refused,
the write goes to position 0, where the descriptor stands, the record of id 0
is replaced and the request is answered SUCCESS. -/
theorem negative_id_put_overwrites :
    computeOffset 256 (-1) = -260 ∧
    (HandleClient 256 (start (mkRecord 256 0 [97, 108, 105, 99, 101])
        (List.replicate 264 0) (List.replicate 264 0))
      [frame 256 PUT (-1) [101, 118, 101]]).sent.map msgType = [SUCCESS] ∧
    (HandleClient 256 (start (mkRecord 256 0 [97, 108, 105, 99, 101])
        (List.replicate 264 0) (List.replicate 264 0))
      [frame 256 PUT (-1) [101, 118, 101]]).file = mkRecord 256 (-1) [101, 118, 101] ∧
    mkRecord 256 (-1) [101, 118, 101] ≠ mkRecord 256 0 [97, 108, 105, 99, 101] := by
  decide

/-- C4 (amended). For a full PUT frame whose computed offset is negative, as it
is for every negative id not below `-2^31 / sizeof(struct record)`, the seek is
refused and the write takes place at the position the descriptor already has.
Unless that write returns `-1` the request is answered with one SUCCESS frame;
when it returns `-1` the content of the backing file is what it was. -/
theorem negative_offset_put (N : Nat) (s : Session) (i : Input) (d : List Nat)
    (hs : i.sock = SockEvent.deliver d) (hl : d.length = sizeofMsg N) (ht : msgType d = PUT)
    (hneg : computeOffset N (msgId d) < 0 ∨
      (msgId d < 0 ∧ -2147483648 ≤ msgId d * (sizeofRecord N : Int))) :
    computeOffset N (msgId d) < 0 ∧
    (loopBody N s i).file = (fileWrite s.file s.cursor (msgRd N d) i.wlim).1 ∧
    (loopBody N s i).cursor = (fileWrite s.file s.cursor (msgRd N d) i.wlim).2.1 ∧
    ((fileWrite s.file s.cursor (msgRd N d) i.wlim).2.2 ≠ -1 →
      ∃ resp, msgType resp = SUCCESS ∧ (loopBody N s i).sent = s.sent ++ [resp]) ∧
    ((fileWrite s.file s.cursor (msgRd N d) i.wlim).2.2 = -1 →
      (loopBody N s i).file = s.file) := by
  have hS := sizeofRecord_ge N
  have h8 : 8 ≤ d.length := by rw [hl]; unfold sizeofMsg; omega
  have hoff : computeOffset N (msgId d) < 0 := by
    rcases hneg with h | ⟨hid, hrg⟩
    · exact h
    · rw [computeOffset_neg N _ hid hrg]
      have : (0 : Int) < (sizeofRecord N : Int) := by omega
      exact mul_neg_of_neg_of_pos hid this
  have hseek : lseek s.cursor (computeOffset N (msgId d)) = s.cursor := by
    simp [lseek, hoff]
  rw [loopBody_put N s i d hs hl ht]
  simp only [handlePut, msgId_store _ _ h8, msgRd_store N _ _ (le_of_eq hl.symm), hseek]
  refine ⟨hoff, ?_, ?_, ?_, ?_⟩
  · split <;> rfl
  · split <;> rfl
  · intro hne
    rw [if_neg hne]
    exact ⟨_, msgType_setType _ _ (by decide) (by decide), rfl⟩
  · intro he
    rw [if_pos he]
    cases hw : i.wlim with
    | none => simp [fileWrite]
    | some k =>
      rw [hw] at he
      simp only [fileWrite] at he ⊢
      split at he
      · simp at he
      · exfalso
        simp only at he
        omega

/-- Witness for C4 (amended): PUT(-1, "eve") in a fresh session over a file that
holds one record. -/
theorem negative_offset_put_witness :
    computeOffset 256 (msgId (mkMsg PUT (mkRecord 256 (-1) [101, 118, 101]))) < 0 ∧
    (loopBody 256 (start (mkRecord 256 0 [97]) [] []) (frame 256 PUT (-1) [101, 118, 101])).file
      = (fileWrite (mkRecord 256 0 [97]) 0
          (msgRd 256 (mkMsg PUT (mkRecord 256 (-1) [101, 118, 101]))) (some 260)).1 :=
  ⟨(negative_offset_put 256 (start (mkRecord 256 0 [97]) [] [])
      (frame 256 PUT (-1) [101, 118, 101]) (mkMsg PUT (mkRecord 256 (-1) [101, 118, 101]))
      rfl (by decide) (by decide) (Or.inr (by decide))).1,
   (negative_offset_put 256 (start (mkRecord 256 0 [97]) [] [])
      (frame 256 PUT (-1) [101, 118, 101]) (mkMsg PUT (mkRecord 256 (-1) [101, 118, 101]))
      rfl (by decide) (by decide) (Or.inr (by decide))).2.1⟩

/-! ## The content of the backing file, byte by byte -/

theorem getElem?_overwriteAt (f d : List Nat) (c j : Nat) :
    (overwriteAt f c d)[j]? =
      if j < c then (if j < f.length then f[j]? else some 0)
      else if j < c + d.length then d[j - c]? else f[j]? := by
  unfold overwriteAt
  have hlen : (f.take c ++ List.replicate (c - f.length) 0).length = c := by
    simp only [List.length_append, List.length_take, List.length_replicate]; omega
  by_cases h1 : j < c
  · rw [if_pos h1, List.append_assoc, List.getElem?_append_left (by omega)]
    by_cases h2 : j < f.length
    · rw [if_pos h2, List.getElem?_append_left (by simp; omega), List.getElem?_take_of_lt h1]
    · rw [if_neg h2, List.getElem?_append_right (by simp; omega)]
      simp only [List.length_take, List.getElem?_replicate]
      rw [if_pos (by omega)]
  · rw [if_neg h1, List.append_assoc, List.getElem?_append_right (by omega), hlen]
    by_cases h3 : j < c + d.length
    · rw [if_pos h3, List.getElem?_append_left (by omega)]
    · rw [if_neg h3, List.getElem?_append_right (by omega), List.getElem?_drop]
      congr 1; omega

theorem take_drop_congr (a b : List Nat) (c n : Nat)
    (h : ∀ t, t < n → a[c + t]? = b[c + t]?) : (a.drop c).take n = (b.drop c).take n := by
  apply List.ext_getElem?
  intro t
  by_cases ht : t < n
  · rw [List.getElem?_take_of_lt ht, List.getElem?_take_of_lt ht, List.getElem?_drop,
      List.getElem?_drop]
    exact h t ht
  · rw [List.getElem?_take_eq_none (by omega), List.getElem?_take_eq_none (by omega)]

theorem overwriteAt_read_back (f d : List Nat) (c : Nat) :
    ((overwriteAt f c d).drop c).take d.length = d := by
  unfold overwriteAt
  have hlen : (f.take c ++ List.replicate (c - f.length) 0).length = c := by
    simp only [List.length_append, List.length_take, List.length_replicate]; omega
  rw [List.append_assoc, List.drop_append_of_le_length (by omega),
    List.drop_of_length_le (by omega), List.nil_append, List.take_left']
  rfl

/-! ## Full frames built from a record image -/

theorem mkMsg_length (N : Nat) (t : Int) (r : List Nat) (hr : r.length = sizeofRecord N) :
    (mkMsg t r).length = sizeofMsg N := by
  simp [mkMsg, le32, sizeofMsg, hr]; omega

theorem msgType_mkMsg (t : Int) (r : List Nat) (h1 : -2147483648 ≤ t) (h2 : t < 2147483648) :
    msgType (mkMsg t r) = t := rd32_le32 t r h1 h2

theorem msgId_mkMsg (t : Int) (r : List Nat) : msgId (mkMsg t r) = recId r := by
  simp [msgId, mkMsg, le32]

theorem msgRd_mkMsg (N : Nat) (t : Int) (r : List Nat) (hr : r.length = sizeofRecord N) :
    msgRd N (mkMsg t r) = r := by
  simp [msgRd, mkMsg, le32, ← hr]

theorem setType_setRd (m r : List Nat) (t : Int) (hm : 4 ≤ m.length) :
    setType (setRd m r) t = mkMsg t r := by
  have h2 : (m.take 4).length = 4 := by simp; omega
  unfold setType setRd mkMsg
  rw [List.drop_append_of_le_length (by omega), List.drop_of_length_le (by omega),
    List.nil_append]

theorem setType_length (m : List Nat) (t : Int) : 4 ≤ (setType m t).length := by
  simp [setType, le32]

theorem mkMsg_length_ge (t : Int) (r : List Nat) : 4 ≤ (mkMsg t r).length := by
  simp [mkMsg, le32]

theorem lseek_inrange (N : Nat) (cursor n : Nat) (h1 : n * sizeofRecord N < 2147483648) :
    lseek cursor (computeOffset N (n : Int)) = n * sizeofRecord N := by
  have h2 : (n : Int) * (sizeofRecord N : Int) < 2147483648 := by exact_mod_cast h1
  rw [computeOffset_inrange N n (by omega) h2]
  have h3 : ¬ ((n : Int) * (sizeofRecord N : Int) < 0) := not_lt.mpr (by positivity)
  unfold lseek
  rw [if_neg h3]
  exact_mod_cast Int.toNat_natCast (n * sizeofRecord N)

theorem fileWrite_full (N : Nat) (f r : List Nat) (c : Nat) (hr : r.length = sizeofRecord N) :
    fileWrite f c r (some (sizeofRecord N))
      = (overwriteAt f c r, c + sizeofRecord N, (sizeofRecord N : Int)) := by
  have hS := sizeofRecord_ge N
  have ht : r.take (sizeofRecord N) = r := List.take_of_length_le (by omega)
  simp only [fileWrite, ht, hr]
  rw [if_neg (by omega)]

theorem fileRead_unlimited (N : Nat) (f : List Nat) (c : Nat) :
    fileRead f c (sizeofRecord N) (some (sizeofRecord N))
      = ((f.drop c).take (sizeofRecord N), c + ((f.drop c).take (sizeofRecord N)).length,
          (((f.drop c).take (sizeofRecord N)).length : Int)) := by
  simp [fileRead]

theorem lseek_natCast (cursor c : Nat) : lseek cursor (c : Int) = c := by
  unfold lseek
  rw [if_neg (by omega)]
  exact Int.toNat_natCast c

theorem computeOffset_natCast (N n : Nat) (h1 : n * sizeofRecord N < 2147483648) :
    computeOffset N (n : Int) = ((n * sizeofRecord N : Nat) : Int) := by
  have h2 : (n : Int) * (sizeofRecord N : Int) < 2147483648 := by exact_mod_cast h1
  rw [computeOffset_inrange N n (by omega) h2]
  push_cast
  rfl

/-- A PUT for an id whose computed offset `c` is not negative, with a write that
transfers the whole slot: the bytes at `c` are replaced and one SUCCESS frame is
sent. -/
theorem loopBody_putReq_at (N : Nat) (s : Session) (r : List Nat) (id : Int) (c : Nat)
    (hr : r.length = sizeofRecord N) (hid : recId r = id)
    (hc : computeOffset N id = (c : Int)) :
    loopBody N s (putReq N r) =
      { s with request := store s.request (mkMsg PUT r),
               file := overwriteAt s.file c r,
               cursor := c + sizeofRecord N,
               response := setType s.response SUCCESS,
               sent := s.sent ++ [setType s.response SUCCESS] } := by
  have hl := mkMsg_length N PUT r hr
  have hS := sizeofRecord_ge N
  have h8 : 8 ≤ (mkMsg PUT r).length := by rw [hl]; unfold sizeofMsg; omega
  rw [loopBody_put N s (putReq N r) (mkMsg PUT r) rfl hl (msgType_mkMsg _ _ (by decide) (by decide))]
  simp only [handlePut, msgId_store _ _ h8, msgRd_store N _ _ (le_of_eq hl.symm), msgId_mkMsg,
    msgRd_mkMsg N _ _ hr, hid, hc, lseek_natCast, putReq, fileWrite_full N _ _ _ hr]
  rw [if_neg (by omega)]

/-- The same for an id that is not negative and whose offset is below `2^31`. -/
theorem loopBody_putReq (N : Nat) (s : Session) (r : List Nat) (n : Nat)
    (hr : r.length = sizeofRecord N) (hid : recId r = (n : Int))
    (h1 : n * sizeofRecord N < 2147483648) :
    loopBody N s (putReq N r) =
      { s with request := store s.request (mkMsg PUT r),
               file := overwriteAt s.file (n * sizeofRecord N) r,
               cursor := n * sizeofRecord N + sizeofRecord N,
               response := setType s.response SUCCESS,
               sent := s.sent ++ [setType s.response SUCCESS] } :=
  loopBody_putReq_at N s r (n : Int) (n * sizeofRecord N) hr hid (computeOffset_natCast N n h1)

/-- A GET for an id whose computed offset `c` is not negative, with a read that
is not cut short, when the slot at `c` is complete and carries the requested id. -/
theorem loopBody_getReq_hit_at (N : Nat) (s : Session) (g x : List Nat) (id : Int) (c : Nat)
    (hg : g.length = sizeofRecord N) (hid : recId g = id)
    (hc : computeOffset N id = (c : Int)) (hresp : 4 ≤ s.response.length)
    (hx : (s.file.drop c).take (sizeofRecord N) = x)
    (hxl : x.length = sizeofRecord N) (hxi : recId x = id) :
    loopBody N s (getReq N g) =
      { s with request := store s.request (mkMsg GET g),
               cursor := c + sizeofRecord N,
               response := mkMsg SUCCESS x,
               sent := s.sent ++ [mkMsg SUCCESS x] } := by
  have hl := mkMsg_length N GET g hg
  have hS := sizeofRecord_ge N
  have h8 : 8 ≤ (mkMsg GET g).length := by rw [hl]; unfold sizeofMsg; omega
  have hst : store (List.replicate (sizeofRecord N) 0) x = x := store_full _ _ (by simp [hxl])
  rw [loopBody_get N s (getReq N g) (mkMsg GET g) rfl hl (msgType_mkMsg _ _ (by decide) (by decide))]
  simp only [handleGet, msgId_store _ _ h8, msgId_mkMsg, hid, hc, lseek_natCast, getReq,
    fileRead_unlimited, hx, hst, hxl, hxi, setType_setRd _ _ _ hresp]
  simp

/-- The same for an id that is not negative and whose offset is below `2^31`. -/
theorem loopBody_getReq_hit (N : Nat) (s : Session) (g x : List Nat) (n : Nat)
    (hg : g.length = sizeofRecord N) (hid : recId g = (n : Int))
    (h1 : n * sizeofRecord N < 2147483648) (hresp : 4 ≤ s.response.length)
    (hx : (s.file.drop (n * sizeofRecord N)).take (sizeofRecord N) = x)
    (hxl : x.length = sizeofRecord N) (hxi : recId x = (n : Int)) :
    loopBody N s (getReq N g) =
      { s with request := store s.request (mkMsg GET g),
               cursor := n * sizeofRecord N + sizeofRecord N,
               response := mkMsg SUCCESS x,
               sent := s.sent ++ [mkMsg SUCCESS x] } :=
  loopBody_getReq_hit_at N s g x (n : Int) (n * sizeofRecord N) hg hid
    (computeOffset_natCast N n h1) hresp hx hxl hxi

/-! ## Runs of the loop -/

theorem HandleClient_append (N : Nat) (xs ys : List Input) (s : Session)
    (h : (HandleClient N s xs).closed = false) :
    HandleClient N s (xs ++ ys) = HandleClient N (HandleClient N s xs) ys := by
  induction xs generalizing s with
  | nil => rfl
  | cons i rest ih =>
    have e1 : HandleClient N s (i :: rest ++ ys) =
        if (loopBody N s i).closed then loopBody N s i
        else HandleClient N (loopBody N s i) (rest ++ ys) := rfl
    have e2 : HandleClient N s (i :: rest) =
        if (loopBody N s i).closed then loopBody N s i
        else HandleClient N (loopBody N s i) rest := rfl
    rw [e2] at h ⊢
    rw [e1]
    by_cases hc : (loopBody N s i).closed = true
    · rw [if_pos hc] at h; rw [hc] at h; cases h
    · rw [if_neg hc] at h ⊢
      rw [if_neg hc]
      exact ih _ h

/-- A run of PUT requests to one id, each transferring its whole slot: every
request is answered SUCCESS and the session stays in the loop. -/
theorem run_puts (N : Nat) (id : Int) (c : Nat) (hc : computeOffset N id = (c : Int))
    (rs : List (List Nat)) (s : Session) (hopen : s.closed = false)
    (hrs : ∀ x ∈ rs, x.length = sizeofRecord N ∧ recId x = id) :
    ∃ acks, acks.length = rs.length ∧ (∀ a ∈ acks, msgType a = SUCCESS) ∧
      (HandleClient N s (rs.map (putReq N))).sent = s.sent ++ acks ∧
      (HandleClient N s (rs.map (putReq N))).closed = false := by
  induction rs generalizing s with
  | nil => exact ⟨[], rfl, by simp, by simp [HandleClient], by simpa [HandleClient] using hopen⟩
  | cons r rest ih =>
    have hr := hrs r (List.mem_cons_self _ _)
    have hstep := loopBody_putReq_at N s r id c hr.1 hr.2 hc
    have hcl1 : (loopBody N s (putReq N r)).closed = false := by rw [hstep]; exact hopen
    obtain ⟨acks, hlen, hall, hsent, hcl⟩ :=
      ih (loopBody N s (putReq N r)) hcl1 (fun x hx => hrs x (List.mem_cons_of_mem _ hx))
    refine ⟨setType s.response SUCCESS :: acks, by simp [hlen], ?_, ?_, ?_⟩
    · intro a ha
      rcases List.mem_cons.mp ha with rfl | ha
      · exact msgType_setType _ _ (by decide) (by decide)
      · exact hall a ha
    · simp only [List.map_cons, HandleClient, hcl1]
      rw [if_neg (by simp), hsent, hstep]
      simp
    · simp only [List.map_cons, HandleClient, hcl1]
      rw [if_neg (by simp)]
      exact hcl

/-- A PUT followed by a GET for the same id, both with complete transfers and a
computed offset that is not negative: the GET is answered SUCCESS with the
record just put. -/
theorem put_then_get (N : Nat) (id : Int) (c : Nat) (hc : computeOffset N id = (c : Int))
    (r g : List Nat) (s : Session) (hopen : s.closed = false)
    (hr : r.length = sizeofRecord N ∧ recId r = id)
    (hg : g.length = sizeofRecord N ∧ recId g = id) :
    (HandleClient N s [putReq N r, getReq N g]).sent
      = s.sent ++ [setType s.response SUCCESS] ++ [mkMsg SUCCESS r] := by
  have hput := loopBody_putReq_at N s r id c hr.1 hr.2 hc
  have hback : ((loopBody N s (putReq N r)).file.drop c).take (sizeofRecord N) = r := by
    rw [hput, ← hr.1]
    exact overwriteAt_read_back _ _ _
  have hresp : 4 ≤ (loopBody N s (putReq N r)).response.length := by
    rw [hput]; exact setType_length _ _
  have hget := loopBody_getReq_hit_at N (loopBody N s (putReq N r)) g r id c hg.1 hg.2 hc hresp
    hback hr.1 hr.2
  have hcl : (loopBody N s (putReq N r)).closed = false := by rw [hput]; exact hopen
  simp only [HandleClient, hcl, ite_self]
  rw [if_neg (by simp), hget, hput]

/-- C1 (amended). Take an id for which the offset computed by the server is not
negative (every id from 0 up to `(2^31 - 1) / sizeof(struct record)` is one),
and a session inside its loop, over any file content. After any sequence of PUT
requests to that id followed by a last PUT of the record `r`, each transferring
its whole slot, every PUT has been answered SUCCESS and a GET for the id whose
read is not cut short is answered SUCCESS with the record `r`: the id and the
name of the last PUT. -/
theorem last_write_wins (N : Nat) (id : Int) (hoff : 0 ≤ computeOffset N id)
    (rs : List (List Nat)) (r g : List Nat) (s : Session) (hopen : s.closed = false)
    (hrs : ∀ x ∈ rs, x.length = sizeofRecord N ∧ recId x = id)
    (hr : r.length = sizeofRecord N ∧ recId r = id)
    (hg : g.length = sizeofRecord N ∧ recId g = id) :
    ∃ acks resp, acks.length = rs.length + 1 ∧ (∀ a ∈ acks, msgType a = SUCCESS) ∧
      (HandleClient N s (rs.map (putReq N) ++ [putReq N r, getReq N g])).sent
        = s.sent ++ acks ++ [resp] ∧
      msgType resp = SUCCESS ∧ msgRd N resp = r ∧
      recId (msgRd N resp) = id ∧ recName N (msgRd N resp) = recName N r := by
  obtain ⟨c, hc⟩ := Int.eq_ofNat_of_zero_le hoff
  obtain ⟨acks, hlen, hall, hsent, hcl⟩ := run_puts N id c hc rs s hopen hrs
  have hrd : msgRd N (mkMsg SUCCESS r) = r := msgRd_mkMsg N _ _ hr.1
  refine ⟨acks ++ [setType (HandleClient N s (rs.map (putReq N))).response SUCCESS],
    mkMsg SUCCESS r, by simp [hlen], ?_, ?_, msgType_mkMsg _ _ (by decide) (by decide), hrd,
    by rw [hrd]; exact hr.2, by rw [hrd]⟩
  · intro a ha
    rcases List.mem_append.mp ha with ha | ha
    · exact hall a ha
    · rw [List.mem_singleton.mp ha]
      exact msgType_setType _ _ (by decide) (by decide)
  · rw [HandleClient_append N _ _ s hcl, put_then_get N id c hc r g _ hcl hr hg, hsent]
    simp

/-- Witness for C1 (amended): PUT(5, "alice"), PUT(5, "bob"), GET(5) in a
fresh session over an empty file. -/
theorem last_write_wins_witness :
    ∃ acks resp, acks.length = [mkRecord 256 5 [97, 108, 105, 99, 101]].length + 1 ∧
      (∀ a ∈ acks, msgType a = SUCCESS) ∧
      (HandleClient 256 (start [] (List.replicate 264 0) (List.replicate 264 0))
        ([mkRecord 256 5 [97, 108, 105, 99, 101]].map (putReq 256) ++
          [putReq 256 (mkRecord 256 5 [98, 111, 98]), getReq 256 (mkRecord 256 5 [])])).sent
        = [] ++ acks ++ [resp] ∧
      msgType resp = SUCCESS ∧ msgRd 256 resp = mkRecord 256 5 [98, 111, 98] ∧
      recId (msgRd 256 resp) = 5 ∧
      recName 256 (msgRd 256 resp) = recName 256 (mkRecord 256 5 [98, 111, 98]) :=
  last_write_wins 256 5 (by decide) [mkRecord 256 5 [97, 108, 105, 99, 101]]
    (mkRecord 256 5 [98, 111, 98]) (mkRecord 256 5 [])
    (start [] (List.replicate 264 0) (List.replicate 264 0)) rfl
    (by decide) (by decide) (by decide)

/-- The restriction of C1 (amended) to writes that transfer the whole slot is
needed. In a fresh session over an empty file, a PUT(1, "alice") whose write
transfers 100 of the 260 bytes is answered SUCCESS and the GET(1) that follows
is answered FAIL, because the slot is incomplete. -/
theorem short_put_then_get_fails :
    (HandleClient 256 (start [] (List.replicate 264 0) (List.replicate 264 0))
      [⟨SockEvent.deliver (mkMsg PUT (mkRecord 256 1 [97, 108, 105, 99, 101])),
          some 100, some 260⟩,
       frame 256 GET 1 []]).sent.map msgType = [SUCCESS, FAIL] := by
  decide

/-- C1 (as stated) fails. In a fresh session over an empty file, PUT(-1,
"alice") is answered SUCCESS (the seek to offset -260 is refused and the record
lands at position 0), and the GET(-1) that follows is answered FAIL: its seek is
refused too and its read starts at position 260, the end of the file. -/
theorem put_get_negative_id_fails :
    (HandleClient 256 (start [] (List.replicate 264 0) (List.replicate 264 0))
      [frame 256 PUT (-1) [97, 108, 105, 99, 101], frame 256 GET (-1) []]).sent.map msgType
      = [SUCCESS, FAIL] ∧
    (HandleClient 256 (start [] (List.replicate 264 0) (List.replicate 264 0))
      [frame 256 PUT (-1) [97, 108, 105, 99, 101], frame 256 GET (-1) []]).file
      = mkRecord 256 (-1) [97, 108, 105, 99, 101] := by
  decide

theorem overwriteAt_length_ge (f d : List Nat) (c : Nat) :
    c + d.length ≤ (overwriteAt f c d).length := by
  simp only [overwriteAt, List.length_append, List.length_take, List.length_replicate,
    List.length_drop]
  omega

/-- Writing one slot leaves the bytes of every other slot of an already
complete range as they were. -/
theorem overwriteAt_other_slot (f d : List Nat) (c c1 n : Nat)
    (hdis : c1 + n ≤ c ∧ c1 + n ≤ f.length ∨ c + d.length ≤ c1) :
    ((overwriteAt f c d).drop c1).take n = (f.drop c1).take n := by
  apply take_drop_congr
  intro t ht
  rw [getElem?_overwriteAt]
  rcases hdis with ⟨h1, h2⟩ | h1
  · rw [if_pos (by omega), if_pos (by omega)]
  · rw [if_neg (by omega), if_neg (by omega)]

/-- C5 (amended). Take two distinct ids `a` and `b` that are not negative and
whose byte offsets `a * sizeof(struct record)` and `b * sizeof(struct record)`
are below `2^31`. Their slots are disjoint byte ranges, and after PUT(a, ra)
and PUT(b, rb), each transferring its whole slot, both are answered SUCCESS,
GET(a) is answered SUCCESS with `ra` and GET(b) is answered SUCCESS with `rb`. -/
theorem sequential_key_isolation (N : Nat) (a b : Nat) (hab : a ≠ b)
    (ha : a * sizeofRecord N < 2147483648) (hb : b * sizeofRecord N < 2147483648)
    (ra rb ga gb : List Nat) (s : Session) (hopen : s.closed = false)
    (hra : ra.length = sizeofRecord N ∧ recId ra = (a : Int))
    (hrb : rb.length = sizeofRecord N ∧ recId rb = (b : Int))
    (hga : ga.length = sizeofRecord N ∧ recId ga = (a : Int))
    (hgb : gb.length = sizeofRecord N ∧ recId gb = (b : Int)) :
    (a * sizeofRecord N + sizeofRecord N ≤ b * sizeofRecord N ∨
      b * sizeofRecord N + sizeofRecord N ≤ a * sizeofRecord N) ∧
    ∃ ack1 ack2, msgType ack1 = SUCCESS ∧ msgType ack2 = SUCCESS ∧
      (HandleClient N s [putReq N ra, putReq N rb, getReq N ga, getReq N gb]).sent
        = s.sent ++ [ack1, ack2, mkMsg SUCCESS ra, mkMsg SUCCESS rb] := by
  have hdis : a * sizeofRecord N + sizeofRecord N ≤ b * sizeofRecord N ∨
      b * sizeofRecord N + sizeofRecord N ≤ a * sizeofRecord N := by
    rcases Nat.lt_or_gt_of_ne hab with h | h
    · left
      have := Nat.mul_le_mul_right (sizeofRecord N) (Nat.succ_le_of_lt h)
      rw [Nat.succ_mul] at this; exact this
    · right
      have := Nat.mul_le_mul_right (sizeofRecord N) (Nat.succ_le_of_lt h)
      rw [Nat.succ_mul] at this; exact this
  refine ⟨hdis, ?_⟩
  have hp1 := loopBody_putReq N s ra a hra.1 hra.2 ha
  have hc1 : (loopBody N s (putReq N ra)).closed = false := by rw [hp1]; exact hopen
  have hp2 := loopBody_putReq N (loopBody N s (putReq N ra)) rb b hrb.1 hrb.2 hb
  rw [hp1] at hp2
  simp only at hp2
  have hf1 : a * sizeofRecord N + sizeofRecord N
      ≤ (overwriteAt s.file (a * sizeofRecord N) ra).length := by
    have := overwriteAt_length_ge s.file ra (a * sizeofRecord N)
    rw [hra.1] at this; exact this
  have hslotA : ((overwriteAt (overwriteAt s.file (a * sizeofRecord N) ra)
      (b * sizeofRecord N) rb).drop (a * sizeofRecord N)).take (sizeofRecord N) = ra := by
    rw [overwriteAt_other_slot]
    · rw [← hra.1]; exact overwriteAt_read_back _ _ _
    · rw [hrb.1]
      rcases hdis with h | h
      · exact Or.inl ⟨h, hf1⟩
      · exact Or.inr h
  have hslotB : ((overwriteAt (overwriteAt s.file (a * sizeofRecord N) ra)
      (b * sizeofRecord N) rb).drop (b * sizeofRecord N)).take (sizeofRecord N) = rb := by
    rw [← hrb.1]; exact overwriteAt_read_back _ _ _
  have hg1 := loopBody_getReq_hit N (loopBody N (loopBody N s (putReq N ra)) (putReq N rb))
    ga ra a hga.1 hga.2 ha (by rw [hp1, hp2]; exact setType_length _ _)
    (by rw [hp1, hp2]; exact hslotA) hra.1 hra.2
  have hg2 := loopBody_getReq_hit N
    (loopBody N (loopBody N (loopBody N s (putReq N ra)) (putReq N rb)) (getReq N ga))
    gb rb b hgb.1 hgb.2 hb (by rw [hg1]; exact mkMsg_length_ge _ _)
    (by rw [hg1, hp1, hp2]; exact hslotB) hrb.1 hrb.2
  refine ⟨setType s.response SUCCESS, setType (setType s.response SUCCESS) SUCCESS,
    msgType_setType _ _ (by decide) (by decide), msgType_setType _ _ (by decide) (by decide), ?_⟩
  have hc2 : (loopBody N (loopBody N s (putReq N ra)) (putReq N rb)).closed = false := by
    rw [hp1, hp2]; exact hopen
  have hc3 : (loopBody N (loopBody N (loopBody N s (putReq N ra)) (putReq N rb))
      (getReq N ga)).closed = false := by
    rw [hg1]; exact hc2
  simp only [HandleClient, hc1, hc2, hc3, ite_self]
  rw [if_neg (by simp), if_neg (by simp), if_neg (by simp), hg2, hg1, hp1, hp2]
  simp

/-- Witness for C5 (amended): the ids 1 and 2 in a fresh session over an empty file. -/
theorem sequential_key_isolation_witness :
    (1 * sizeofRecord 256 + sizeofRecord 256 ≤ 2 * sizeofRecord 256 ∨
      2 * sizeofRecord 256 + sizeofRecord 256 ≤ 1 * sizeofRecord 256) ∧
    ∃ ack1 ack2, msgType ack1 = SUCCESS ∧ msgType ack2 = SUCCESS ∧
      (HandleClient 256 (start [] (List.replicate 264 0) (List.replicate 264 0))
        [putReq 256 (mkRecord 256 1 [97]), putReq 256 (mkRecord 256 2 [98]),
         getReq 256 (mkRecord 256 1 []), getReq 256 (mkRecord 256 2 [])]).sent
        = [] ++ [ack1, ack2, mkMsg SUCCESS (mkRecord 256 1 [97]),
            mkMsg SUCCESS (mkRecord 256 2 [98])] :=
  sequential_key_isolation 256 1 2 (by decide) (by decide) (by decide)
    (mkRecord 256 1 [97]) (mkRecord 256 2 [98]) (mkRecord 256 1 []) (mkRecord 256 2 [])
    (start [] (List.replicate 264 0) (List.replicate 264 0)) rfl
    (by decide) (by decide) (by decide) (by decide)

/-- Whatever `MAX_NAME_LENGTH` is, `sizeof(struct record)` is a multiple of 4, so
the ids `a` and `a + 2^30` are given the same offset. -/
theorem computeOffset_collision (N a : Nat) (h : a < 1073741824) :
    computeOffset N ((a + 1073741824 : Nat) : Int) = computeOffset N (a : Int) := by
  have e1 : (((a + 1073741824 : Nat) : Int) % 18446744073709551616).toNat = a + 1073741824 := by
    omega
  have e2 : (((a : Nat) : Int) % 18446744073709551616).toNat = a := by omega
  have e3 : (a + 1073741824) * (4 * ((4 + N + 3) / 4))
      = 4 * (a * ((4 + N + 3) / 4)) + 4294967296 * ((4 + N + 3) / 4) := by ring
  have e4 : a * (4 * ((4 + N + 3) / 4)) = 4 * (a * ((4 + N + 3) / 4)) := by ring
  unfold computeOffset sizeofRecord toInt32
  rw [e1, e2, e3, e4]
  generalize a * ((4 + N + 3) / 4) = m
  generalize (4 + N + 3) / 4 = q
  have e5 : (4 * m + 4294967296 * q) % 18446744073709551616 % 4294967296
      = 4 * m % 18446744073709551616 % 4294967296 := by omega
  rw [e5]

/-- C5 (as stated) fails. With `MAX_NAME_LENGTH = 256` the ids 1 and
1073741825 are distinct 32-bit ids, but `1073741825 * 260 = 65 * 2^32 + 260`, so
both are given the offset 260. In a fresh session over an empty file PUT(1,
"alice") and PUT(1073741825, "bob") are both answered SUCCESS, the second
replaces the first, and GET(1) is answered FAIL. -/
theorem wrapped_offsets_collide :
    computeOffset 256 1 = 260 ∧ computeOffset 256 1073741825 = 260 ∧
    (HandleClient 256 (start [] (List.replicate 264 0) (List.replicate 264 0))
      [frame 256 PUT 1 [97, 108, 105, 99, 101], frame 256 PUT 1073741825 [98, 111, 98],
       frame 256 GET 1 [], frame 256 GET 1073741825 []]).sent.map msgType
      = [SUCCESS, SUCCESS, FAIL, SUCCESS] := by
  decide

/-- The tag `handleGet` gives its answer, as a function of what the read returned. -/
theorem loopBody_get_eq (N : Nat) (s : Session) (i : Input) (d : List Nat)
    (hs : i.sock = SockEvent.deliver d) (hl : d.length = sizeofMsg N) (ht : msgType d = GET)
    (hresp : 4 ≤ s.response.length) :
    loopBody N s i =
      { s with
        request := store s.request d,
        cursor := (fileRead s.file (lseek s.cursor (computeOffset N (msgId d)))
          (sizeofRecord N) i.rlim).2.1,
        response := mkMsg
          (if (fileRead s.file (lseek s.cursor (computeOffset N (msgId d)))
                (sizeofRecord N) i.rlim).2.2 ≠ (sizeofRecord N : Int) ∨
              recId (store (List.replicate (sizeofRecord N) 0)
                (fileRead s.file (lseek s.cursor (computeOffset N (msgId d)))
                  (sizeofRecord N) i.rlim).1) ≠ msgId d
            then FAIL else SUCCESS)
          (store (List.replicate (sizeofRecord N) 0)
            (fileRead s.file (lseek s.cursor (computeOffset N (msgId d)))
              (sizeofRecord N) i.rlim).1),
        sent := s.sent ++ [mkMsg
          (if (fileRead s.file (lseek s.cursor (computeOffset N (msgId d)))
                (sizeofRecord N) i.rlim).2.2 ≠ (sizeofRecord N : Int) ∨
              recId (store (List.replicate (sizeofRecord N) 0)
                (fileRead s.file (lseek s.cursor (computeOffset N (msgId d)))
                  (sizeofRecord N) i.rlim).1) ≠ msgId d
            then FAIL else SUCCESS)
          (store (List.replicate (sizeofRecord N) 0)
            (fileRead s.file (lseek s.cursor (computeOffset N (msgId d)))
              (sizeofRecord N) i.rlim).1)] } := by
  have hS := sizeofRecord_ge N
  have h8 : 8 ≤ d.length := by rw [hl]; unfold sizeofMsg; omega
  rw [loopBody_get N s i d hs hl ht]
  simp only [handleGet, msgId_store _ _ h8]
  split <;> simp only [setType_setRd _ _ _ hresp]

theorem lseek_nonneg (c1 c2 : Nat) (off : Int) (h : 0 ≤ off) : lseek c1 off = lseek c2 off := by
  simp [lseek, not_lt.mpr h]

/-- C6 (amended). Take a session whose response buffer is at least as long as
its tag field, and two full GET frames for the same id, one right after the
other, the two reads of the backing file being treated alike by the system.
When the offset computed for the id is not negative, the two requests receive
the same answer frame: the same type and the same record. -/
theorem get_idempotent (N : Nat) (s : Session) (d1 d2 : List Nat) (w1 w2 rl : Option Nat)
    (hl1 : d1.length = sizeofMsg N) (ht1 : msgType d1 = GET)
    (hl2 : d2.length = sizeofMsg N) (ht2 : msgType d2 = GET)
    (hid : msgId d2 = msgId d1) (hoff : 0 ≤ computeOffset N (msgId d1))
    (hresp : 4 ≤ s.response.length) :
    ∃ resp,
      (loopBody N s ⟨SockEvent.deliver d1, w1, rl⟩).sent = s.sent ++ [resp] ∧
      (loopBody N (loopBody N s ⟨SockEvent.deliver d1, w1, rl⟩)
        ⟨SockEvent.deliver d2, w2, rl⟩).sent = s.sent ++ [resp, resp] := by
  have e1 := loopBody_get_eq N s ⟨SockEvent.deliver d1, w1, rl⟩ d1 rfl hl1 ht1 hresp
  have hr1 : 4 ≤ (loopBody N s ⟨SockEvent.deliver d1, w1, rl⟩).response.length := by
    rw [e1]; exact mkMsg_length_ge _ _
  have e2 := loopBody_get_eq N (loopBody N s ⟨SockEvent.deliver d1, w1, rl⟩)
    ⟨SockEvent.deliver d2, w2, rl⟩ d2 rfl hl2 ht2 hr1
  have hfile : (loopBody N s ⟨SockEvent.deliver d1, w1, rl⟩).file = s.file := by rw [e1]
  have hseek : lseek (loopBody N s ⟨SockEvent.deliver d1, w1, rl⟩).cursor
      (computeOffset N (msgId d1)) = lseek s.cursor (computeOffset N (msgId d1)) :=
    lseek_nonneg _ _ _ hoff
  rw [hid, hfile, hseek] at e2
  refine ⟨_, by rw [e1], ?_⟩
  rw [e2]
  simp only
  rw [e1]
  simp

/-- Witness for C6 (amended): GET(1) twice in a fresh session over a file that
holds the records 0 and 1. -/
theorem get_idempotent_witness :
    ∃ resp,
      (loopBody 256 (start (mkRecord 256 0 [97] ++ mkRecord 256 1 [98]) [] (List.replicate 264 0))
        ⟨SockEvent.deliver (mkMsg GET (mkRecord 256 1 [])), none, some 260⟩).sent
        = [] ++ [resp] ∧
      (loopBody 256
        (loopBody 256
          (start (mkRecord 256 0 [97] ++ mkRecord 256 1 [98]) [] (List.replicate 264 0))
          ⟨SockEvent.deliver (mkMsg GET (mkRecord 256 1 [])), none, some 260⟩)
        ⟨SockEvent.deliver (mkMsg GET (mkRecord 256 1 [120])), none, some 260⟩).sent
        = [] ++ [resp, resp] :=
  get_idempotent 256
    (start (mkRecord 256 0 [97] ++ mkRecord 256 1 [98]) [] (List.replicate 264 0))
    (mkMsg GET (mkRecord 256 1 [])) (mkMsg GET (mkRecord 256 1 [120])) none none (some 260)
    (by decide) (by decide) (by decide) (by decide) (by decide) (by decide) (by decide)

/-- C6 (as stated) fails. An earlier session has stored PUT(-1, "alice"), which
landed at position 0 of the empty file. In a fresh session over that file two
consecutive GET(-1) are answered SUCCESS and then FAIL: both seeks are refused,
so the first read takes the slot at position 0 and the second one starts at
position 260, the end of the file. -/
theorem repeated_get_differs :
    (HandleClient 256 (start [] (List.replicate 264 0) (List.replicate 264 0))
      [frame 256 PUT (-1) [97, 108, 105, 99, 101]]).file
      = mkRecord 256 (-1) [97, 108, 105, 99, 101] ∧
    (HandleClient 256 (start (mkRecord 256 (-1) [97, 108, 105, 99, 101])
        (List.replicate 264 0) (List.replicate 264 0))
      [frame 256 GET (-1) [], frame 256 GET (-1) []]).sent
      = [mkMsg SUCCESS (mkRecord 256 (-1) [97, 108, 105, 99, 101]),
         mkMsg FAIL (List.replicate 260 0)] := by
  decide

/-! ## Slots that have never been written -/

theorem fileWrite_eq_or (f buf : List Nat) (c : Nat) (lim : Option Nat) :
    (fileWrite f c buf lim).1 = f ∨
      ∃ d, d.length ≤ buf.length ∧ lim ≠ none ∧ (fileWrite f c buf lim).1 = overwriteAt f c d := by
  cases lim with
  | none => left; rfl
  | some k =>
    simp only [fileWrite]
    split
    · left; rfl
    · right
      exact ⟨buf.take k, by simp, by simp, rfl⟩

theorem overwriteAt_keeps_clear (f d : List Nat) (c lo hi : Nat)
    (hdis : hi ≤ c ∨ c + d.length ≤ lo)
    (hclear : ∀ j, lo ≤ j → j < hi → f[j]?.getD 0 = 0) :
    ∀ j, lo ≤ j → j < hi → (overwriteAt f c d)[j]?.getD 0 = 0 := by
  intro j h1 h2
  rw [getElem?_overwriteAt]
  rcases hdis with h | h
  · rw [if_pos (by omega)]
    split
    · exact hclear j h1 h2
    · rfl
  · rw [if_neg (by omega), if_neg (by omega)]
    exact hclear j h1 h2

theorem msgRd_length_le (N : Nat) (m : List Nat) : (msgRd N m).length ≤ sizeofRecord N := by
  simp [msgRd, List.length_take]

/-- One iteration keeps slot `n` free of non-zero bytes, as long as a PUT it
dispatches has a representable offset and, when it goes to `n`, fails. -/
theorem loopBody_keeps_clear (N n : Nat) (s : Session) (i : Input)
    (hi : ∃ d, i.sock = SockEvent.deliver d ∧ d.length = sizeofMsg N ∧
      (msgType d = PUT → ∃ m : Nat, msgId d = (m : Int) ∧ m * sizeofRecord N < 2147483648 ∧
        (m = n → i.wlim = none)))
    (hclear : ∀ j, n * sizeofRecord N ≤ j → j < n * sizeofRecord N + sizeofRecord N →
      s.file[j]?.getD 0 = 0) :
    ∀ j, n * sizeofRecord N ≤ j → j < n * sizeofRecord N + sizeofRecord N →
      (loopBody N s i).file[j]?.getD 0 = 0 := by
  obtain ⟨d, hs, hl, hput⟩ := hi
  have hS := sizeofRecord_ge N
  have h8 : 8 ≤ d.length := by rw [hl]; unfold sizeofMsg; omega
  by_cases ht : msgType d = PUT
  · obtain ⟨m, hm, hrange, hfail⟩ := hput ht
    have hfile : (loopBody N s i).file
        = (fileWrite s.file (m * sizeofRecord N) (msgRd N d) i.wlim).1 := by
      rw [loopBody_put N s i d hs hl ht]
      simp only [handlePut, msgId_store _ _ h8, msgRd_store N _ _ (le_of_eq hl.symm), hm,
        lseek_inrange N _ m hrange]
      split <;> rfl
    rw [hfile]
    rcases fileWrite_eq_or s.file (msgRd N d) (m * sizeofRecord N) i.wlim with h | ⟨x, hx, hw, h⟩
    · rw [h]; exact hclear
    · rw [h]
      have hmn : m ≠ n := fun e => hw (hfail e)
      have hxl : x.length ≤ sizeofRecord N := le_trans hx (msgRd_length_le N d)
      apply overwriteAt_keeps_clear _ _ _ _ _ _ hclear
      rcases Nat.lt_or_gt_of_ne hmn with hlt | hgt
      · right
        have := Nat.mul_le_mul_right (sizeofRecord N) (Nat.succ_le_of_lt hlt)
        rw [Nat.succ_mul] at this
        omega
      · left
        have := Nat.mul_le_mul_right (sizeofRecord N) (Nat.succ_le_of_lt hgt)
        rw [Nat.succ_mul] at this
        omega
  · by_cases hg : msgType d = GET
    · rw [loopBody_get N s i d hs hl hg]
      exact hclear
    · rw [loopBody_other N s i d hs hl ht hg]
      exact hclear

theorem HandleClient_keeps_clear (N n : Nat) (reqs : List Input) (s : Session)
    (hreqs : ∀ i ∈ reqs, ∃ d, i.sock = SockEvent.deliver d ∧ d.length = sizeofMsg N ∧
      (msgType d = PUT → ∃ m : Nat, msgId d = (m : Int) ∧ m * sizeofRecord N < 2147483648 ∧
        (m = n → i.wlim = none)))
    (hclear : ∀ j, n * sizeofRecord N ≤ j → j < n * sizeofRecord N + sizeofRecord N →
      s.file[j]?.getD 0 = 0) :
    ∀ j, n * sizeofRecord N ≤ j → j < n * sizeofRecord N + sizeofRecord N →
      (HandleClient N s reqs).file[j]?.getD 0 = 0 := by
  induction reqs generalizing s with
  | nil => exact hclear
  | cons i rest ih =>
    have hstep := loopBody_keeps_clear N n s i (hreqs i (List.mem_cons_self _ _)) hclear
    have e : HandleClient N s (i :: rest) =
        if (loopBody N s i).closed then loopBody N s i
        else HandleClient N (loopBody N s i) rest := rfl
    rw [e]
    split
    · exact hstep
    · exact ih _ (fun x hx => hreqs x (List.mem_cons_of_mem _ hx)) hstep

theorem rd32_of_clear (x : List Nat) (h : ∀ t, t < 4 → x[t]?.getD 0 = 0) : rd32 x = 0 := by
  have e : ∀ t, x.getD t 0 = x[t]?.getD 0 := fun t => List.getD_eq_getElem?_getD x t 0
  unfold rd32
  rw [e 0, e 1, e 2, e 3, h 0 (by omega), h 1 (by omega), h 2 (by omega), h 3 (by omega)]
  rfl

/-- A GET for an id other than 0 whose slot holds no non-zero byte is answered FAIL. -/
theorem loopBody_get_clear (N n : Nat) (hn0 : n ≠ 0) (hn : n * sizeofRecord N < 2147483648)
    (s : Session) (g : List Nat) (wl rl : Option Nat)
    (hg : g.length = sizeofRecord N ∧ recId g = (n : Int))
    (hclear : ∀ j, n * sizeofRecord N ≤ j → j < n * sizeofRecord N + sizeofRecord N →
      s.file[j]?.getD 0 = 0) :
    ∃ resp, msgType resp = FAIL ∧
      (loopBody N s ⟨SockEvent.deliver (mkMsg GET g), wl, rl⟩).sent = s.sent ++ [resp] := by
  have hl := mkMsg_length N GET g hg.1
  have hS := sizeofRecord_ge N
  have h8 : 8 ≤ (mkMsg GET g).length := by rw [hl]; unfold sizeofMsg; omega
  rw [loopBody_get N s ⟨SockEvent.deliver (mkMsg GET g), wl, rl⟩ (mkMsg GET g) rfl hl
    (msgType_mkMsg _ _ (by decide) (by decide))]
  simp only [handleGet, msgId_store _ _ h8, msgId_mkMsg, hg.2, lseek_inrange N _ n hn]
  generalize hrd : fileRead s.file (n * sizeofRecord N) (sizeofRecord N) rl = r
  have hcond : r.2.2 ≠ (sizeofRecord N : Int) ∨
      recId (store (List.replicate (sizeofRecord N) 0) r.1) ≠ (n : Int) := by
    by_cases hfull : r.2.2 = (sizeofRecord N : Int)
    · right
      have hlen : r.1.length = sizeofRecord N := by
        rw [← hrd] at hfull ⊢; exact fileRead_full _ _ _ _ hfull
      rw [store_full _ _ (by simp [hlen])]
      have hzero : recId r.1 = 0 := by
        apply rd32_of_clear
        intro t ht
        cases rl with
        | none => simp [fileRead] at hrd; rw [← hrd] at hlen; simp at hlen; omega
        | some k =>
          simp only [fileRead] at hrd
          rw [← hrd] at hlen ⊢
          simp only at hlen ⊢
          have hk : t < min (sizeofRecord N) k := by
            rw [List.length_take] at hlen; omega
          rw [List.getElem?_take_of_lt hk, List.getElem?_drop]
          exact hclear _ (by omega) (by omega)
      rw [hzero]
      exact_mod_cast (Ne.symm hn0)
    · left; exact hfull
  rw [if_pos hcond]
  exact ⟨_, msgType_setType _ _ (by decide) (by decide), rfl⟩

/-- C2 (amended). A session starts over an empty backing file and receives full
frames; every PUT among them has an id that is not negative and whose byte
offset is below `2^31`. Let `n` be an id other than 0, with such an offset too,
that no PUT answered SUCCESS has targeted (a PUT to `n` may occur only with a
write that returns `-1`). If the session is still in its loop, a GET for `n` is
answered FAIL. -/
theorem miss_on_unwritten_key (N n : Nat) (hn0 : n ≠ 0) (hn : n * sizeofRecord N < 2147483648)
    (reqs : List Input) (g : List Nat) (wl rl : Option Nat) (req resp : List Nat)
    (hreqs : ∀ i ∈ reqs, ∃ d, i.sock = SockEvent.deliver d ∧ d.length = sizeofMsg N ∧
      (msgType d = PUT → ∃ m : Nat, msgId d = (m : Int) ∧ m * sizeofRecord N < 2147483648 ∧
        (m = n → i.wlim = none)))
    (hg : g.length = sizeofRecord N ∧ recId g = (n : Int))
    (hopen : (HandleClient N (start [] req resp) reqs).closed = false) :
    ∃ ans, msgType ans = FAIL ∧
      (HandleClient N (start [] req resp)
          (reqs ++ [⟨SockEvent.deliver (mkMsg GET g), wl, rl⟩])).sent
        = (HandleClient N (start [] req resp) reqs).sent ++ [ans] := by
  have hclear := HandleClient_keeps_clear N n reqs (start [] req resp) hreqs
    (fun j _ _ => by simp [start])
  obtain ⟨ans, htype, hsent⟩ := loopBody_get_clear N n hn0 hn
    (HandleClient N (start [] req resp) reqs) g wl rl hg hclear
  refine ⟨ans, htype, ?_⟩
  rw [HandleClient_append N _ _ _ hopen]
  simp only [HandleClient, ite_self]
  exact hsent

/-- Witness for C2 (amended): after PUT(1, "a") and a PUT(3, "b") whose write
fails, GET(3) is answered FAIL. -/
theorem miss_on_unwritten_key_witness :
    ∃ ans, msgType ans = FAIL ∧
      (HandleClient 256 (start [] (List.replicate 264 0) (List.replicate 264 0))
          ([frame 256 PUT 1 [97],
            ⟨SockEvent.deliver (mkMsg PUT (mkRecord 256 3 [98])), none, some 260⟩] ++
           [⟨SockEvent.deliver (mkMsg GET (mkRecord 256 3 [])), some 260, some 260⟩])).sent
        = (HandleClient 256 (start [] (List.replicate 264 0) (List.replicate 264 0))
            [frame 256 PUT 1 [97],
             ⟨SockEvent.deliver (mkMsg PUT (mkRecord 256 3 [98])), none, some 260⟩]).sent
          ++ [ans] :=
  miss_on_unwritten_key 256 3 (by decide) (by decide)
    [frame 256 PUT 1 [97], ⟨SockEvent.deliver (mkMsg PUT (mkRecord 256 3 [98])), none, some 260⟩]
    (mkRecord 256 3 []) (some 260) (some 260) (List.replicate 264 0) (List.replicate 264 0)
    (fun i hi => by
      rcases List.mem_cons.mp hi with h | hi
      · exact ⟨mkMsg PUT (mkRecord 256 1 [97]), by rw [h]; rfl, by decide,
          fun _ => ⟨1, by decide, by decide, fun e => absurd e (by decide)⟩⟩
      · rw [List.mem_singleton.mp hi]
        exact ⟨mkMsg PUT (mkRecord 256 3 [98]), rfl, by decide,
          fun _ => ⟨3, by decide, by decide, fun _ => rfl⟩⟩)
    (by decide) (by decide)

/-- C2 (as stated) fails. A fresh session over an empty file receives PUT(1,
"alice"), which leaves slot 0 as a zero-filled hole, and then GET(0): the read
returns a full slot whose embedded id is 0, so the GET for the never written id
0 is answered SUCCESS with an all-zero record. -/
theorem hole_answers_get_zero :
    (HandleClient 256 (start [] (List.replicate 264 0) (List.replicate 264 0))
      [frame 256 PUT 1 [97, 108, 105, 99, 101], frame 256 GET 0 []]).sent
      = [mkMsg SUCCESS (List.replicate 260 0), mkMsg SUCCESS (List.replicate 260 0)] := by
  decide

/-- The restriction of C2 (amended) to representable offsets is needed. With
`MAX_NAME_LENGTH = 256` the id 16519105 is given the offset `16519105 * 260 -
2^32 = 4`, so its record is written to the bytes 4 to 263 and its last four name
bytes become the id field of slot 1. After a PUT to id 2 has extended the file,
GET(1) is answered SUCCESS although id 1 was never the target of a PUT. -/
theorem wrapped_put_fakes_a_record :
    computeOffset 256 16519105 = 4 ∧
    (HandleClient 256 (start [] (List.replicate 264 0) (List.replicate 264 0))
      [frame 256 PUT 16519105 (List.replicate 252 0 ++ [1, 0, 0, 0]), frame 256 PUT 2 [98],
       frame 256 GET 1 []]).sent.map msgType = [SUCCESS, SUCCESS, SUCCESS] := by
  decide

/-! ## Two sessions at the same time: key isolation -/

/-- The PUT branch is the seek followed by the write. -/
theorem handlePut_eq_seek_write (N : Nat) (s : Session) (wlim : Option Nat) :
    handlePut N s wlim = putWrite N (putSeek N s) wlim := rfl

theorem putSeek_inrange (N n : Nat) (r : List Nat) (t : Session)
    (hn : n * sizeofRecord N < 2147483648) (hr : recId r = (n : Int))
    (ht : t.request = mkMsg PUT r) :
    putSeek N t = { t with cursor := n * sizeofRecord N } := by
  simp only [putSeek, ht, msgId_mkMsg, hr, lseek_inrange N _ n hn]

theorem putWrite_full (N : Nat) (r : List Nat) (t : Session)
    (hr : r.length = sizeofRecord N) (ht : t.request = mkMsg PUT r) :
    putWrite N t (some (sizeofRecord N)) =
      { t with file := overwriteAt t.file t.cursor r,
               cursor := t.cursor + sizeofRecord N,
               response := setType t.response SUCCESS,
               sent := t.sent ++ [setType t.response SUCCESS] } := by
  have hS := sizeofRecord_ge N
  simp only [putWrite, ht, msgRd_mkMsg N _ _ hr, fileWrite_full N _ _ _ hr]
  rw [if_neg (by omega)]

theorem slot_length (f r : List Nat) (c n : Nat) (h : (f.drop c).take n = r)
    (hr : r.length = n) (hn : 0 < n) : c + n ≤ f.length := by
  have h3 : min n (f.length - c) = n := by
    rw [← List.length_drop, ← List.length_take, h, hr]
  omega

theorem pairStep_inv (N n1 n2 : Nat) (r1 r2 : List Nat) (hne : n1 ≠ n2)
    (h1 : n1 * sizeofRecord N < 2147483648) (h2 : n2 * sizeofRecord N < 2147483648)
    (hr1 : r1.length = sizeofRecord N ∧ recId r1 = (n1 : Int))
    (hr2 : r2.length = sizeofRecord N ∧ recId r2 = (n2 : Int))
    (p : Pair) (who : Bool) (hp : PairInv N n1 n2 r1 r2 p) :
    PairInv N n1 n2 r1 r2 (pairStep N p who) := by
  obtain ⟨hA, hB, hra, hrb, hca, hcb, hsa, hsb⟩ := hp
  have hS : 0 < sizeofRecord N := by have := sizeofRecord_ge N; omega
  have hdis : n1 * sizeofRecord N + sizeofRecord N ≤ n2 * sizeofRecord N ∨
      n2 * sizeofRecord N + sizeofRecord N ≤ n1 * sizeofRecord N := by
    rcases Nat.lt_or_gt_of_ne hne with h | h
    · left
      have := Nat.mul_le_mul_right (sizeofRecord N) (Nat.succ_le_of_lt h)
      rw [Nat.succ_mul] at this; exact this
    · right
      have := Nat.mul_le_mul_right (sizeofRecord N) (Nat.succ_le_of_lt h)
      rw [Nat.succ_mul] at this; exact this
  cases who with
  | true =>
    simp only [pairStep, if_true]
    rcases (by omega : p.pcA = 0 ∨ p.pcA = 1 ∨ p.pcA = 2) with h | h | h
    · simp only [h, putCall, putSeek_inrange N n1 r1 p.a h1 hr1.2 hra]
      exact ⟨by simp, hB, hra, hrb, fun _ => rfl, hcb, fun e => by simp at e, hsb⟩
    · have hw := putWrite_full N r1 { p.a with file := p.file } hr1.1 hra
      simp only [h, putCall, hw]
      simp only [hca h]
      refine ⟨by simp, hB, hra, hrb, fun e => by simp at e, hcb, fun _ => ?_, fun e => ?_⟩
      · rw [← hr1.1]; exact overwriteAt_read_back _ _ _
      · rw [overwriteAt_other_slot]
        · exact hsb e
        · rw [hr1.1]
          rcases hdis with hd | hd
          · exact Or.inr hd
          · exact Or.inl ⟨hd, slot_length _ _ _ _ (hsb e) hr2.1 hS⟩
    · simp only [h, putCall]
      exact ⟨by simp, hB, hra, hrb, fun e => by simp at e, hcb, fun _ => hsa h, hsb⟩
  | false =>
    simp only [pairStep, Bool.false_eq_true, if_false]
    rcases (by omega : p.pcB = 0 ∨ p.pcB = 1 ∨ p.pcB = 2) with h | h | h
    · simp only [h, putCall, putSeek_inrange N n2 r2 p.b h2 hr2.2 hrb]
      exact ⟨hA, by simp, hra, hrb, hca, fun _ => rfl, hsa, fun e => by simp at e⟩
    · have hw := putWrite_full N r2 { p.b with file := p.file } hr2.1 hrb
      simp only [h, putCall, hw]
      simp only [hcb h]
      refine ⟨hA, by simp, hra, hrb, hca, fun e => by simp at e, fun e => ?_, fun _ => ?_⟩
      · rw [overwriteAt_other_slot]
        · exact hsa e
        · rw [hr2.1]
          rcases hdis with hd | hd
          · exact Or.inl ⟨hd, slot_length _ _ _ _ (hsa e) hr1.1 hS⟩
          · exact Or.inr hd
      · rw [← hr2.1]; exact overwriteAt_read_back _ _ _
    · simp only [h, putCall]
      exact ⟨hA, by simp, hra, hrb, hca, fun e => by simp at e, hsa, fun _ => hsb h⟩

theorem pairRun_inv (N n1 n2 : Nat) (r1 r2 : List Nat) (hne : n1 ≠ n2)
    (h1 : n1 * sizeofRecord N < 2147483648) (h2 : n2 * sizeofRecord N < 2147483648)
    (hr1 : r1.length = sizeofRecord N ∧ recId r1 = (n1 : Int))
    (hr2 : r2.length = sizeofRecord N ∧ recId r2 = (n2 : Int))
    (sch : List Bool) (p : Pair) (hp : PairInv N n1 n2 r1 r2 p) :
    PairInv N n1 n2 r1 r2 (pairRun N p sch) := by
  induction sch generalizing p with
  | nil => exact hp
  | cons w rest ih =>
    exact ih (pairStep N p w) (pairStep_inv N n1 n2 r1 r2 hne h1 h2 hr1 hr2 p w hp)

theorem pairRun_pcA (N : Nat) (sch : List Bool) (p : Pair) (h : p.pcA ≤ 2) :
    (pairRun N p sch).pcA = min 2 (p.pcA + sch.count true) := by
  induction sch generalizing p with
  | nil => simp [pairRun]; omega
  | cons w rest ih =>
    have e : pairRun N p (w :: rest) = pairRun N (pairStep N p w) rest := rfl
    rw [e]
    cases w with
    | true =>
      have e1 : (pairStep N p true).pcA = if p.pcA < 2 then p.pcA + 1 else p.pcA := rfl
      rw [ih _ (by rw [e1]; split <;> omega), e1, List.count_cons_self]
      split <;> omega
    | false =>
      have e1 : (pairStep N p false).pcA = p.pcA := rfl
      rw [ih _ (by rw [e1]; exact h), e1, List.count_cons_of_ne (by decide)]

theorem pairRun_pcB (N : Nat) (sch : List Bool) (p : Pair) (h : p.pcB ≤ 2) :
    (pairRun N p sch).pcB = min 2 (p.pcB + sch.count false) := by
  induction sch generalizing p with
  | nil => simp [pairRun]; omega
  | cons w rest ih =>
    have e : pairRun N p (w :: rest) = pairRun N (pairStep N p w) rest := rfl
    rw [e]
    cases w with
    | false =>
      have e1 : (pairStep N p false).pcB = if p.pcB < 2 then p.pcB + 1 else p.pcB := rfl
      rw [ih _ (by rw [e1]; split <;> omega), e1, List.count_cons_self]
      split <;> omega
    | true =>
      have e1 : (pairStep N p true).pcB = p.pcB := rfl
      rw [ih _ (by rw [e1]; exact h), e1, List.count_cons_of_ne (by decide)]

/-- Two GET requests in a session over a file whose two slots are complete. -/
theorem two_gets (N n1 n2 : Nat) (h1 : n1 * sizeofRecord N < 2147483648)
    (h2 : n2 * sizeofRecord N < 2147483648) (r1 r2 g1 g2 : List Nat) (s : Session)
    (hopen : s.closed = false) (hresp : 4 ≤ s.response.length)
    (hr1 : r1.length = sizeofRecord N ∧ recId r1 = (n1 : Int))
    (hr2 : r2.length = sizeofRecord N ∧ recId r2 = (n2 : Int))
    (hg1 : g1.length = sizeofRecord N ∧ recId g1 = (n1 : Int))
    (hg2 : g2.length = sizeofRecord N ∧ recId g2 = (n2 : Int))
    (hs1 : (s.file.drop (n1 * sizeofRecord N)).take (sizeofRecord N) = r1)
    (hs2 : (s.file.drop (n2 * sizeofRecord N)).take (sizeofRecord N) = r2) :
    (HandleClient N s [getReq N g1, getReq N g2]).sent
      = s.sent ++ [mkMsg SUCCESS r1, mkMsg SUCCESS r2] := by
  have e1 := loopBody_getReq_hit N s g1 r1 n1 hg1.1 hg1.2 h1 hresp hs1 hr1.1 hr1.2
  have e2 := loopBody_getReq_hit N (loopBody N s (getReq N g1)) g2 r2 n2 hg2.1 hg2.2 h2
    (by rw [e1]; exact mkMsg_length_ge _ _) (by rw [e1]; exact hs2) hr2.1 hr2.2
  have hc : (loopBody N s (getReq N g1)).closed = false := by rw [e1]; exact hopen
  simp only [HandleClient, hc, ite_self]
  rw [if_neg (by simp), e2, e1]
  simp

/-- C10. Two sessions run at the same time, each with its own descriptor on the
backing file; one stores the record `r1` under the id `n1`, the other the
record `r2` under a different id `n2` (the claim has `n1 = 1` and `n2 = 2`), the
offsets of both ids being representable and both writes transferring a whole
slot. Under every schedule of their system calls in which both sessions complete
their seek and their write, slot `n1` of the file ends up holding `r1` and slot
`n2` holding `r2`, and a session started afterwards gets SUCCESS with `r1` for
GET(n1) and SUCCESS with `r2` for GET(n2). -/
theorem concurrent_key_isolation (N n1 n2 : Nat) (hne : n1 ≠ n2)
    (h1 : n1 * sizeofRecord N < 2147483648) (h2 : n2 * sizeofRecord N < 2147483648)
    (r1 r2 g1 g2 file : List Nat) (a b : Session) (sch : List Bool) (req resp : List Nat)
    (hr1 : r1.length = sizeofRecord N ∧ recId r1 = (n1 : Int))
    (hr2 : r2.length = sizeofRecord N ∧ recId r2 = (n2 : Int))
    (hg1 : g1.length = sizeofRecord N ∧ recId g1 = (n1 : Int))
    (hg2 : g2.length = sizeofRecord N ∧ recId g2 = (n2 : Int))
    (ha : a.request = mkMsg PUT r1) (hb : b.request = mkMsg PUT r2)
    (hA : 2 ≤ sch.count true) (hB : 2 ≤ sch.count false) (hresp : 4 ≤ resp.length) :
    (pairRun N (pairStart file a b) sch).pcA = 2 ∧
    (pairRun N (pairStart file a b) sch).pcB = 2 ∧
    ((pairRun N (pairStart file a b) sch).file.drop (n1 * sizeofRecord N)).take
      (sizeofRecord N) = r1 ∧
    ((pairRun N (pairStart file a b) sch).file.drop (n2 * sizeofRecord N)).take
      (sizeofRecord N) = r2 ∧
    (HandleClient N (start (pairRun N (pairStart file a b) sch).file req resp)
      [getReq N g1, getReq N g2]).sent = [mkMsg SUCCESS r1, mkMsg SUCCESS r2] := by
  have hinit : PairInv N n1 n2 r1 r2 (pairStart file a b) :=
    ⟨Nat.zero_le _, Nat.zero_le _, ha, hb, fun e => by simp [pairStart] at e,
      fun e => by simp [pairStart] at e, fun e => by simp [pairStart] at e,
      fun e => by simp [pairStart] at e⟩
  have hinv := pairRun_inv N n1 n2 r1 r2 hne h1 h2 hr1 hr2 sch _ hinit
  have hpa : (pairRun N (pairStart file a b) sch).pcA = 2 := by
    rw [pairRun_pcA N sch _ (Nat.zero_le _)]
    simp only [pairStart]; omega
  have hpb : (pairRun N (pairStart file a b) sch).pcB = 2 := by
    rw [pairRun_pcB N sch _ (Nat.zero_le _)]
    simp only [pairStart]; omega
  obtain ⟨_, _, _, _, _, _, hsa, hsb⟩ := hinv
  refine ⟨hpa, hpb, hsa hpa, hsb hpb, ?_⟩
  have := two_gets N n1 n2 h1 h2 r1 r2 g1 g2
    (start (pairRun N (pairStart file a b) sch).file req resp) rfl hresp hr1 hr2 hg1 hg2
    (hsa hpa) (hsb hpb)
  simpa [start] using this

/-- Witness for C10: PUT(1, "a") and PUT(2, "b") over an empty file, under the
schedule seek of the first session, seek of the second, write of the second,
write of the first. -/
theorem concurrent_key_isolation_witness :
    (pairRun 256 (pairStart []
        (start [] (mkMsg PUT (mkRecord 256 1 [97])) (List.replicate 264 0))
        (start [] (mkMsg PUT (mkRecord 256 2 [98])) (List.replicate 264 0)))
      [true, false, false, true]).file
      = List.replicate 260 0 ++ mkRecord 256 1 [97] ++ mkRecord 256 2 [98] ∧
    (HandleClient 256 (start (pairRun 256 (pairStart []
        (start [] (mkMsg PUT (mkRecord 256 1 [97])) (List.replicate 264 0))
        (start [] (mkMsg PUT (mkRecord 256 2 [98])) (List.replicate 264 0)))
      [true, false, false, true]).file (List.replicate 264 0) (List.replicate 264 0))
      [getReq 256 (mkRecord 256 1 []), getReq 256 (mkRecord 256 2 [])]).sent
      = [mkMsg SUCCESS (mkRecord 256 1 [97]), mkMsg SUCCESS (mkRecord 256 2 [98])] :=
  ⟨by decide,
   (concurrent_key_isolation 256 1 2 (by decide) (by decide) (by decide)
      (mkRecord 256 1 [97]) (mkRecord 256 2 [98]) (mkRecord 256 1 []) (mkRecord 256 2 []) []
      (start [] (mkMsg PUT (mkRecord 256 1 [97])) (List.replicate 264 0))
      (start [] (mkMsg PUT (mkRecord 256 2 [98])) (List.replicate 264 0))
      [true, false, false, true] (List.replicate 264 0) (List.replicate 264 0)
      (by decide) (by decide) (by decide) (by decide) rfl rfl (by decide) (by decide)
      (by decide)).2.2.2.2⟩

end DbServer
